import Mathlib

/-!
Shallow embedding of the peaks.js waveform builder module
(src/waveform-builder.js): the VirtualChannel sliding-window cache, the
DynamicLoadWaveForm and DynamicResampleWaveform facades, and the
WaveformBuilder.init acquisition dispatch.  JS numbers are modelled as
exact rationals, JS array holes (reads of unset slots yielding undefined)
as Option values, and the callback driven concurrency as an explicit
event-step relation over a system state.
-/

namespace Peaks

/-- Peak waveform data object as exposed by the external waveform-data
library: attributes plus the channel-0 accessors.  Used both for the base
waveform backing a virtual channel and for decoded detail responses. -/
structure WfData where
  length : Nat
  scale : Rat
  sample_rate : Rat
  channels : Nat
  minS : Nat → Rat
  maxS : Nat → Rat

/-- Duration in seconds as defined by the library (see the comment at the
DynamicLoadWaveForm constructor: duration = length * scale / sample_rate). -/
def WfData.duration (w : WfData) : Rat := (w.length : Rat) * w.scale / w.sample_rate

/-- Result of resampling with the external library: a single channel of
min and max accessors at a new length. -/
structure Resampled where
  length : Nat
  minS : Nat → Rat
  maxS : Nat → Rat

/-- Source-index block that contributes to output index i when resampling
from scale w.scale to scale s. -/
def resampleBlock (w : WfData) (s : Rat) (i : Nat) : List Nat :=
  (List.range w.length).filter
    (fun j => decide ((i : Rat) * s / w.scale ≤ (j : Rat)) &&
              decide ((j : Rat) < ((i : Rat) + 1) * s / w.scale))

/-- Minimum of f over a list of indices, 0 when the list is empty. -/
def listMinD (f : Nat → Rat) : List Nat → Rat
  | [] => 0
  | j :: js => js.foldl (fun a k => min a (f k)) (f j)

/-- Maximum of f over a list of indices, 0 when the list is empty. -/
def listMaxD (f : Nat → Rat) : List Nat → Rat
  | [] => 0
  | j :: js => js.foldl (fun a k => max a (f k)) (f j)

/-- Modelled from the spec: the resample operation of the external
waveform-data library (the code under src only calls it).  Spec section 4.1:
min and max preserving downsampling to a different scale; the output length
preserves the duration, so a length L input at scale r resampled to scale s
has ceil(L * r / s) points, and each output point takes the min of the mins
and the max of the maxes of its source block. -/
def libResample (w : WfData) (s : Rat) : Resampled :=
  { length := (⌈(w.length : Rat) * w.scale / s⌉).toNat,
    minS := fun i => listMinD w.minS (resampleBlock w s i),
    maxS := fun i => listMaxD w.maxS (resampleBlock w s i) }

/-- JS array read of the min value of a resampled channel: undefined (none)
outside the channel bounds. -/
def Resampled.readMin (r : Resampled) (i : Nat) : Option Rat :=
  if i < r.length then some (r.minS i) else none

/-- JS array read of the max value of a resampled channel: undefined (none)
outside the channel bounds. -/
def Resampled.readMax (r : Resampled) (i : Nat) : Option Rat :=
  if i < r.length then some (r.maxS i) else none

/-- JS Math.round: floor of x + 1/2 (ties round toward positive infinity). -/
def jsRound (q : Rat) : Int := ⌊q + 1 / 2⌋

/-- State of a VirtualChannel: the backing original waveform, the samples
per pixel ratio, and the resident window, a flat array of (min, max) pairs
starting at virtual index dataOffset.  A none component models a JS array
hole or unset slot, which reads as undefined. -/
structure VC where
  org : WfData
  spp : Rat
  data : List (Option Rat × Option Rat)
  dataOffset : Int

/-- Translation of VirtualChannel.in_range: index inside the half-open
resident window.  data.length counts pairs, matching data.length / 2 in the
source where the array is flat. -/
def VC.in_range (vc : VC) (i : Int) : Bool :=
  decide (vc.dataOffset ≤ i) && decide (i < vc.dataOffset + (vc.data.length : Int))

/-- JS read this.data[(i - dataOffset) * 2 .. + 1] restricted to the case the
caller has checked in_range: the stored pair. -/
def VC.pairAt (vc : VC) (i : Int) : Option Rat × Option Rat :=
  vc.data.getD (i - vc.dataOffset).toNat (none, none)

/-- The maxWindowSize constant of ensureIndexAvailable. -/
def maxWindowSize : Int := 2000

/-- Number of pairs of a freshly installed window: to - from = 2 * maxWindowSize. -/
def windowSpan : Nat := 4000

/-- Guard of ensureIndexAvailable: the early return fires when
dataOffset <= index <= dataOffset + size (closed upper bound in the source). -/
def VC.noopGuard (vc : VC) (index : Int) : Bool :=
  decide (vc.dataOffset ≤ index) && decide (index ≤ vc.dataOffset + (vc.data.length : Int))

/-- Index in the backing waveform a virtual index is seeded from:
Math.round(.5 + i * samples_per_pixel / originalWaveform.scale). -/
def VC.seedIdx (vc : VC) (i : Int) : Int :=
  jsRound (1 / 2 + (i : Rat) * vc.spp / vc.org.scale)

/-- Body of the window construction loop of ensureIndexAvailable at slot k
(virtual index i = from + k): carry the pair over when the old window still
covers it, otherwise seed it from the backing waveform at the seed index
when that index is inside the backing range, otherwise leave the slot as a
hole. -/
def VC.windowSlot (vc : VC) (index : Int) (k : Nat) : Option Rat × Option Rat :=
  let i : Int := index - maxWindowSize + k
  if vc.in_range i then vc.pairAt i
  else
    if 0 ≤ vc.seedIdx i ∧ vc.seedIdx i < (vc.org.length : Int) then
      (some (vc.org.minS (vc.seedIdx i).toNat), some (vc.org.maxS (vc.seedIdx i).toNat))
    else (none, none)

/-- The new window array built by ensureIndexAvailable: windowSpan slots,
each built by the construction loop. -/
def VC.newWindow (vc : VC) (index : Int) : List (Option Rat × Option Rat) :=
  (List.range windowSpan).map (vc.windowSlot index)

/-- One network fetch created by ensureIndexAvailable, identified by its
position in the creation order and carrying the window span it belongs to. -/
structure Fetch where
  lo : Int
  hi : Int

/-- Whole-system state of one VirtualChannel: channel state plus fetch
bookkeeping (every fetch ever created, the current xhr, the ids abort was
called on, the ids whose load handler already ran), the number of refresh
callback invocations and the argument pairs of every detailUriProvider call. -/
structure Sys where
  vc : VC
  fetches : List Fetch
  current : Option Nat
  abortedIds : List Nat
  delivered : List Nat
  cbCount : Nat
  urlCalls : List (Rat × Rat)

/-- Translation of ensureIndexAvailable: early return inside the closed
guard range; otherwise install the new window, compute the url with the
hardcoded 48000 divisor, abort the previous xhr when one exists, and send a
new fetch. -/
def ensureStep (s : Sys) (index : Int) : Sys :=
  if s.vc.noopGuard index then s
  else
    let lo := index - maxWindowSize
    let hi := index + maxWindowSize
    { vc := { s.vc with data := s.vc.newWindow index, dataOffset := lo },
      fetches := s.fetches ++ [⟨lo, hi⟩],
      current := some s.fetches.length,
      abortedIds :=
        (match s.current with
         | some c => c :: s.abortedIds
         | none => s.abortedIds),
      delivered := s.delivered,
      cbCount := s.cbCount,
      urlCalls := s.urlCalls ++
        [((lo : Rat) * s.vc.spp / 48000, (hi : Rat) * s.vc.spp / 48000)] }

/-- The xhr.onload copy loop: for dataIdx below n overwrite the resident
pair with the reads of the resampled response channel (reads past the
resampled bounds store undefined, that is a none pair). -/
def installPairs (d : List (Option Rat × Option Rat)) (r : Resampled) (n : Nat) :
    List (Option Rat × Option Rat) :=
  (List.range n).foldl (fun acc k => acc.set k (r.readMin k, r.readMax k)) d

/-- Delivery of the response of fetch id with the given HTTP status: the
translation of the xhr.onload handler.  The event is only enabled when the
fetch exists, its handler has not run yet, and, under reliable abort
semantics (the browser guarantee that a load event never fires after abort),
the fetch was not aborted; with reliable = false a response may still arrive
for an aborted fetch, modelling abort as best effort only.  The handler:
non 200 status only logs; a response with other than one channel only logs;
otherwise it resamples the response to the channel samples per pixel and
copies min(to - from, response.length) pairs into the resident data, then
invokes the refresh callback. -/
def deliverStep (reliable : Bool) (s : Sys) (id status : Nat) (resp : WfData) : Sys :=
  if id < s.fetches.length ∧ id ∉ s.delivered ∧ (reliable = true → id ∉ s.abortedIds) then
    let s1 : Sys := { s with delivered := id :: s.delivered }
    if status ≠ 200 then s1
    else if resp.channels ≠ 1 then s1
    else
      let f := s.fetches.getD id ⟨0, 0⟩
      let res := libResample resp s.vc.spp
      let n := min (f.hi - f.lo).toNat resp.length
      { s1 with
        vc := { s1.vc with data := installPairs s1.vc.data res n },
        cbCount := s1.cbCount + 1 }
  else s

/-- Events of the system: a read access driving ensureIndexAvailable, or the
arrival of the response of a given fetch. -/
inductive Ev where
  | access : Int → Ev
  | deliver : Nat → Nat → WfData → Ev

/-- One event step. -/
def stepEv (reliable : Bool) (s : Sys) : Ev → Sys
  | Ev.access i => ensureStep s i
  | Ev.deliver id status resp => deliverStep reliable s id status resp

/-- Run a list of events from a state. -/
def run (reliable : Bool) (s0 : Sys) (evs : List Ev) : Sys :=
  evs.foldl (stepEv reliable) s0

/-- Freshly constructed VirtualChannel: empty data array, offset 0, no fetch
ever issued. -/
def initSys (org : WfData) (spp : Rat) : Sys :=
  { vc := { org := org, spp := spp, data := [], dataOffset := 0 },
    fetches := [], current := none, abortedIds := [], delivered := [],
    cbCount := 0, urlCalls := [] }

/-- JS read this.data[(i - dataOffset) * 2]: a negative flat index or one past
the array end reads as undefined, a hole also reads as undefined. -/
def VC.dataRead (vc : VC) (i : Int) : Option Rat × Option Rat :=
  if 0 ≤ i - vc.dataOffset then vc.data.getD (i - vc.dataOffset).toNat (none, none)
  else (none, none)

/-- Translation of min_sample: run ensureIndexAvailable, then read the even
flat slot; returns the value (undefined modelled as none) and the new state. -/
def minSampleRun (s : Sys) (i : Int) : Option Rat × Sys :=
  let s1 := ensureStep s i
  ((s1.vc.dataRead i).1, s1)

/-- Translation of max_sample: run ensureIndexAvailable, then read the odd
flat slot. -/
def maxSampleRun (s : Sys) (i : Int) : Option Rat × Sys :=
  let s1 := ensureStep s i
  ((s1.vc.dataRead i).2, s1)

/-- Arguments of DynamicResampleWaveform.resample: an optional scale and a
width.  A present scale of 0 is falsy in JS, so the source then falls back to
the width branch. -/
structure ResampleArgs where
  scale : Option Rat
  width : Rat

/-- Target length computed by DynamicResampleWaveform.resample:
duration * sample_rate / args.scale when args.scale is truthy, else
args.width. -/
def targetLength (w : WfData) (args : ResampleArgs) : Rat :=
  match args.scale with
  | some sc => if sc = 0 then args.width else w.duration * w.sample_rate / sc
  | none => args.width

/-- State of a DynamicLoadWaveForm: the waveform it was constructed over,
the virtual length in pixels, and the derived samples per pixel
scale * length / virtual length. -/
structure DynamicLoadWaveForm where
  baseWf : WfData
  vlen : Rat
  spp : Rat

/-- The DynamicLoadWaveForm constructor: throws when the backing waveform
has other than one channel, otherwise derives the samples per pixel. -/
def mkDynamicLoadWaveForm (w : WfData) (len : Rat) : Except String DynamicLoadWaveForm :=
  if w.channels ≠ 1 then Except.error "No support for multiple channels"
  else Except.ok { baseWf := w, vlen := len, spp := w.scale * (w.length : Rat) / len }

/-- Modelled from the spec: the scale at which the external library serves a
local resample request (used only to name the downsampled result the local
branch returns; the spec, section 4.4, derives length and scale from each
other through the duration). -/
def localScale (w : WfData) (args : ResampleArgs) : Rat :=
  match args.scale with
  | some sc => if sc = 0 then (w.length : Rat) * w.scale / args.width else sc
  | none => (w.length : Rat) * w.scale / args.width

/-- Result of DynamicResampleWaveform.resample: a virtual waveform streaming
detail on demand, or a plain locally downsampled waveform. -/
inductive ResampleResult where
  | virtualWf : DynamicLoadWaveForm → ResampleResult
  | downsampled : Resampled → ResampleResult

/-- Whether a resample result is the virtual variant. -/
def ResampleResult.isVirtual : ResampleResult → Bool
  | ResampleResult.virtualWf _ => true
  | ResampleResult.downsampled _ => false

/-- Translation of DynamicResampleWaveform.resample: compute the target
length, construct a DynamicLoadWaveForm over this waveform when the target
exceeds the locally held length, otherwise downsample locally and return
synchronously. -/
def dynResample (w : WfData) (args : ResampleArgs) : Except String ResampleResult :=
  let len := targetLength w args
  if (w.length : Rat) < len then
    (mkDynamicLoadWaveForm w len).map ResampleResult.virtualWf
  else
    Except.ok (ResampleResult.downsampled (libResample w (localScale w args)))

/-- Samples per pixel of the virtual result, when the result is virtual. -/
def resultSpp : Except String ResampleResult → Option Rat
  | Except.ok (ResampleResult.virtualWf v) => some v.spp
  | _ => none

/-- Callback invocation of the acquisition entry point: with an error, or
with a waveform. -/
inductive CbEvent where
  | err : CbEvent
  | okWf : CbEvent
deriving DecidableEq

/-- The only attribute of a parsed waveform the init paths inspect. -/
structure WfInfo where
  channels : Nat
deriving DecidableEq

/-- Outcome of one XMLHttpRequest: a load event at done state with an HTTP
status and the parse result of the payload, or a transport error. -/
inductive XhrOutcome where
  | load : Nat → Except Unit WfInfo → XhrOutcome
  | transportFail : XhrOutcome

/-- The dataUri option: an object with truthiness of its arraybuffer and
json url fields, a plain string (with the flag telling whether
dataUriDefaultFormat selects arraybuffer), or a truthy value of another
shape. -/
inductive DataUriVal where
  | obj : Bool → Bool → DataUriVal
  | strUri : Bool → DataUriVal
  | other : DataUriVal

/-- The waveformData option: an object with validity of its json and
arraybuffer fields, or a truthy value of another shape. -/
inductive WfLocalVal where
  | obj : Bool → Bool → WfLocalVal
  | other : WfLocalVal

/-- Options passed to WaveformBuilder.init, reduced to what the dispatch
inspects.  The webAudio Bool tells whether an audioBuffer is supplied. -/
structure InitOptions where
  dataUri : Option DataUriVal
  waveformData : Option WfLocalVal
  webAudio : Option Bool
  audioContext : Bool

/-- External environment of one init run: browser capabilities, media
element sources, xhr outcomes, the local parse outcome, and the single
callback event the external createFromAudio builder produces. -/
structure BrowserEnv where
  hasArrayBuffer : Bool
  hasJSON : Bool
  ctxValid : Bool
  currentSrc : String
  canplayFires : Bool
  canplaySrc : String
  remoteXhr : XhrOutcome
  audioXhr : XhrOutcome
  localParse : Except Unit WfInfo
  audioBuildResult : CbEvent

/-- Observable outcome of one init run: the callback invocations in order,
whether an exception escaped a handler, and whether the run is still waiting
on a canplay event. -/
structure InitResult where
  calls : List CbEvent
  threw : Bool
  pending : Bool
deriving DecidableEq

/-- Url resolution loop over the connectors ArrayBuffer then JSON: on a
present connector the url variable is assigned and the loop stops when that
url is truthy; the final url may be left falsy. -/
def resolveUrl (hasAB hasJSON ab js : Bool) : Bool :=
  if hasAB then (if ab then true else if hasJSON then js else false)
  else if hasJSON then js else false

/-- Tail of the remote path after url resolution: no url is a callback
error; a transport error is a callback error; a non 200 status is a callback
error; a 200 payload that fails to parse throws out of the load handler (the
DynamicResampleWaveform constructor parse is not wrapped in try catch);
otherwise the channel count is validated and the callback receives the
waveform. -/
def remoteFetchRun (urlFound : Bool) (env : BrowserEnv) : InitResult :=
  if urlFound = false then ⟨[CbEvent.err], false, false⟩
  else
    match env.remoteXhr with
    | XhrOutcome.transportFail => ⟨[CbEvent.err], false, false⟩
    | XhrOutcome.load status parsed =>
      if status ≠ 200 then ⟨[CbEvent.err], false, false⟩
      else
        match parsed with
        | Except.error _ => ⟨[], true, false⟩
        | Except.ok w =>
          if w.channels ≠ 1 ∧ w.channels ≠ 2 then ⟨[CbEvent.err], false, false⟩
          else ⟨[CbEvent.okWf], false, false⟩

/-- Translation of _getRemoteWaveformData. -/
def remoteRun (duo : DataUriVal) (env : BrowserEnv) : InitResult :=
  match duo with
  | DataUriVal.other => ⟨[CbEvent.err], false, false⟩
  | DataUriVal.obj ab js => remoteFetchRun (resolveUrl env.hasArrayBuffer env.hasJSON ab js) env
  | DataUriVal.strUri defAB =>
    remoteFetchRun (resolveUrl env.hasArrayBuffer env.hasJSON defAB (!defAB)) env

/-- Translation of _buildWaveformFromLocalData: every failure, including a
parse exception, is caught and surfaced through the callback. -/
def localRun (v : WfLocalVal) (env : BrowserEnv) : InitResult :=
  match v with
  | WfLocalVal.other => ⟨[CbEvent.err], false, false⟩
  | WfLocalVal.obj jsonOk bufOk =>
    if jsonOk = false ∧ bufOk = false then ⟨[CbEvent.err], false, false⟩
    else
      match env.localParse with
      | Except.error _ => ⟨[CbEvent.err], false, false⟩
      | Except.ok w =>
        if w.channels ≠ 1 ∧ w.channels ≠ 2 then ⟨[CbEvent.err], false, false⟩
        else ⟨[CbEvent.okWf], false, false⟩

/-- Translation of _requestAudioAndBuildWaveformData: a falsy url is logged
and the callback is never invoked; otherwise the audio bytes are fetched and
handed to the external builder, whose contract is a single callback. -/
def requestAudioRun (url : String) (env : BrowserEnv) : InitResult :=
  if url = "" then ⟨[], false, false⟩
  else
    match env.audioXhr with
    | XhrOutcome.transportFail => ⟨[CbEvent.err], false, false⟩
    | XhrOutcome.load status _ =>
      if status ≠ 200 then ⟨[CbEvent.err], false, false⟩
      else ⟨[env.audioBuildResult], false, false⟩

/-- Translation of the web audio branch of init: with an audioBuffer the
external builder is called directly; otherwise the audio context is
validated, and the audio request is issued now when the media element
already has a source, or deferred to the canplay event. -/
def webAudioRun (hasBuffer : Bool) (env : BrowserEnv) : InitResult :=
  if hasBuffer then ⟨[env.audioBuildResult], false, false⟩
  else if env.ctxValid = false then ⟨[CbEvent.err], false, false⟩
  else if env.currentSrc ≠ "" then requestAudioRun env.currentSrc env
  else if env.canplayFires then requestAudioRun env.canplaySrc env
  else ⟨[], false, true⟩

/-- The mutual exclusion check at the top of init. -/
def conflictErr (o : InitOptions) : Bool :=
  (o.dataUri.isSome && (o.webAudio.isSome || o.audioContext)) ||
  (o.waveformData.isSome && (o.webAudio.isSome || o.audioContext)) ||
  (o.dataUri.isSome && o.waveformData.isSome)

/-- Translation of WaveformBuilder.init: reject conflicting sources through
the callback, translate the deprecated audioContext option into a webAudio
object (without an audioBuffer), then dispatch on dataUri, waveformData,
webAudio, and finally report the missing source through the callback. -/
def initRun (o : InitOptions) (env : BrowserEnv) : InitResult :=
  if conflictErr o then ⟨[CbEvent.err], false, false⟩
  else
    let webAudio : Option Bool := if o.audioContext then some false else o.webAudio
    match o.dataUri with
    | some duo => remoteRun duo env
    | none =>
      match o.waveformData with
      | some v => localRun v env
      | none =>
        match webAudio with
        | some hasBuffer => webAudioRun hasBuffer env
        | none => ⟨[CbEvent.err], false, false⟩

/-- Condition describing the init path that reaches the audio request with a
falsy media url: web audio without an audioBuffer, a valid context, an empty
source at init time, and a canplay event that fires while the source is
still empty. -/
def invalidSrcPath (o : InitOptions) (env : BrowserEnv) : Bool :=
  !(conflictErr o) && o.dataUri.isNone && o.waveformData.isNone &&
  (o.audioContext || o.webAudio.isSome) &&
  !((if o.audioContext then some false else o.webAudio).getD false) &&
  env.ctxValid && decide (env.currentSrc = "") && env.canplayFires &&
  decide (env.canplaySrc = "")

/-- Condition describing the init path on which the remote payload of a 200
response fails to parse, so the handler throws without invoking the
callback. -/
def remoteParseThrow (o : InitOptions) (env : BrowserEnv) : Bool :=
  match o.dataUri, env.remoteXhr with
  | some duo, XhrOutcome.load status (Except.error _) =>
    !(conflictErr o) && decide (status = 200) &&
    (match duo with
     | DataUriVal.obj ab js => resolveUrl env.hasArrayBuffer env.hasJSON ab js
     | DataUriVal.strUri defAB => resolveUrl env.hasArrayBuffer env.hasJSON defAB (!defAB)
     | DataUriVal.other => false)
  | _, _ => false

/-- Fetch bookkeeping invariant of a VirtualChannel system: the current xhr
id is a real fetch, and every fetch that was neither aborted nor delivered is
the current one (so at most one fetch is ever in flight). -/
def SysInv (s : Sys) : Prop :=
  (∀ c, s.current = some c → c < s.fetches.length) ∧
  (∀ id, id < s.fetches.length → id ∉ s.abortedIds → id ∉ s.delivered →
    s.current = some id)

/-- A fetch is in flight when it exists, abort was never called on it, and
its handler has not run. -/
def inFlight (s : Sys) (id : Nat) : Prop :=
  id < s.fetches.length ∧ id ∉ s.abortedIds ∧ id ∉ s.delivered

/-- Every fetch ever issued spans exactly 2 * maxWindowSize pixels. -/
def spanInv (s : Sys) : Prop := ∀ f ∈ s.fetches, f.hi - f.lo = 2 * maxWindowSize

/-- Once a fetch exists the resident window holds exactly windowSpan pairs. -/
def lenInv (s : Sys) : Prop := s.fetches.length ≠ 0 → s.vc.data.length = windowSpan

/-- A waveform or decoded response satisfies min at most max at every index
it holds. -/
def WfOK (w : WfData) : Prop := ∀ j, j < w.length → w.minS j ≤ w.maxS j

/-- A window slot is sound: either a hole, or a populated pair with min at
most max. -/
def slotOK (p : Option Rat × Option Rat) : Prop :=
  p = (none, none) ∨ ∃ m M, p = (some m, some M) ∧ m ≤ M

/-- An event carries only sound responses. -/
def evRespOK : Ev → Prop
  | Ev.deliver _ _ resp => WfOK resp
  | Ev.access _ => True

/-- A zero length backing waveform (sample rate 48000, scale 512). -/
def orgEmpty : WfData := ⟨0, 512, 48000, 1, fun _ => 0, fun _ => 0⟩

/-- A backing waveform whose sample rate is 44100 rather than 48000. -/
def org44 : WfData := ⟨1000, 512, 44100, 1, fun _ => 0, fun _ => 0⟩

/-- A backing waveform with 100 points whose pair at j is (j, j + 1). -/
def orgSeed : WfData := ⟨100, 512, 48000, 1, fun j => (j : Rat), fun j => (j : Rat) + 1⟩

/-- A one point detail response at scale 2 with the given constant pair. -/
def respFine (m M : Rat) : WfData := ⟨1, 2, 48000, 1, fun _ => m, fun _ => M⟩

/-- A 4000 point detail response at scale 1 with constant pair (1, 2). -/
def resp4000 : WfData := ⟨4000, 1, 48000, 1, fun _ => 1, fun _ => 2⟩

/-- The base waveform of the resample test in the spec: length 1000, scale
512, sample rate 48000, one channel. -/
def base1000 : WfData := ⟨1000, 512, 48000, 1, fun _ => 0, fun _ => 0⟩

theorem length_newWindow (vc : VC) (i : Int) : (vc.newWindow i).length = windowSpan := by
  simp [VC.newWindow]

theorem getD_newWindow (vc : VC) (index : Int) (k : Nat) (h : k < windowSpan) :
    (vc.newWindow index).getD k (none, none) = vc.windowSlot index k := by
  rw [List.getD_eq_getElem?_getD, VC.newWindow, List.getElem?_map, List.getElem?_range h]
  rfl

theorem getD_all {α : Type} (l : List α) (d : α) (h : ∀ x ∈ l, x = d) (k : Nat) :
    l.getD k d = d := by
  induction l generalizing k with
  | nil => cases k <;> rfl
  | cons a t ih =>
    cases k with
    | zero => exact h a (List.mem_cons_self a t)
    | succ m => exact ih (fun x hx => h x (List.mem_cons_of_mem a hx)) m

theorem getD_mem_or_eq {α : Type} (l : List α) (k : Nat) (d : α) :
    l.getD k d ∈ l ∨ l.getD k d = d := by
  rw [List.getD_eq_getElem?_getD]
  cases hl : l[k]? with
  | none => right; rfl
  | some x => left; simpa using List.getElem?_mem hl

theorem installPairs_succ (d : List (Option Rat × Option Rat)) (r : Resampled) (m : Nat) :
    installPairs d r (m + 1) =
      (installPairs d r m).set m (r.readMin m, r.readMax m) := by
  unfold installPairs
  rw [List.range_succ, List.foldl_append]
  rfl

theorem installPairs_length (d : List (Option Rat × Option Rat)) (r : Resampled) (n : Nat) :
    (installPairs d r n).length = d.length := by
  induction n with
  | zero => rfl
  | succ m ih => rw [installPairs_succ, List.length_set]; exact ih

theorem installPairs_getD_ge (d : List (Option Rat × Option Rat)) (r : Resampled)
    (n k : Nat) (h : n ≤ k) (dd : Option Rat × Option Rat) :
    (installPairs d r n).getD k dd = d.getD k dd := by
  induction n with
  | zero => rfl
  | succ m ih =>
    rw [installPairs_succ, List.getD_eq_getElem?_getD,
      List.getElem?_set_ne (by omega), ← List.getD_eq_getElem?_getD]
    exact ih (by omega)

theorem installPairs_getD_lt (d : List (Option Rat × Option Rat)) (r : Resampled)
    (n k : Nat) (hk : k < n) (hd : k < d.length) :
    (installPairs d r n).getD k (none, none) = (r.readMin k, r.readMax k) := by
  induction n with
  | zero => omega
  | succ m ih =>
    rw [installPairs_succ]
    rcases Nat.lt_succ_iff_lt_or_eq.mp hk with hlt | heq
    · rw [List.getD_eq_getElem?_getD, List.getElem?_set_ne (by omega),
        ← List.getD_eq_getElem?_getD]
      exact ih hlt
    · subst heq
      rw [List.getD_eq_getElem?_getD,
        List.getElem?_set_self (by rw [installPairs_length]; exact hd)]
      rfl

theorem foldl_min_le_foldl_max (f g : Nat → Rat) (l : List Nat) (a b : Rat)
    (hab : a ≤ b) (h : ∀ j ∈ l, f j ≤ g j) :
    l.foldl (fun x k => min x (f k)) a ≤ l.foldl (fun x k => max x (g k)) b := by
  induction l generalizing a b with
  | nil => exact hab
  | cons j t ih =>
    simp only [List.foldl_cons]
    apply ih
    · exact le_trans (min_le_left a (f j)) (le_trans hab (le_max_left b (g j)))
    · intro x hx; exact h x (List.mem_cons_of_mem j hx)

theorem listMinD_le_listMaxD (f g : Nat → Rat) (l : List Nat)
    (h : ∀ j ∈ l, f j ≤ g j) : listMinD f l ≤ listMaxD g l := by
  cases l with
  | nil => exact le_refl 0
  | cons j t =>
    exact foldl_min_le_foldl_max f g t (f j) (g j) (h j (List.mem_cons_self j t))
      (fun x hx => h x (List.mem_cons_of_mem j hx))

theorem mem_resampleBlock_lt (w : WfData) (s : Rat) (i j : Nat)
    (h : j ∈ resampleBlock w s i) : j < w.length := by
  unfold resampleBlock at h
  exact List.mem_range.mp (List.mem_filter.mp h).1

theorem libResample_pair_ok (w : WfData) (s : Rat) (hw : WfOK w) (k : Nat) :
    slotOK ((libResample w s).readMin k, (libResample w s).readMax k) := by
  unfold Resampled.readMin Resampled.readMax
  by_cases hk : k < (libResample w s).length
  · rw [if_pos hk, if_pos hk]
    right
    refine ⟨_, _, rfl, ?_⟩
    show listMinD w.minS (resampleBlock w s k) ≤ listMaxD w.maxS (resampleBlock w s k)
    exact listMinD_le_listMaxD w.minS w.maxS (resampleBlock w s k)
      (fun j hj => hw j (mem_resampleBlock_lt w s k j hj))
  · rw [if_neg hk, if_neg hk]; left; rfl

theorem windowSlot_ok (vc : VC) (index : Int) (k : Nat)
    (hd : ∀ p ∈ vc.data, slotOK p) (ho : WfOK vc.org) :
    slotOK (vc.windowSlot index k) := by
  unfold VC.windowSlot
  dsimp only
  split
  · unfold VC.pairAt
    rcases getD_mem_or_eq vc.data (index - maxWindowSize + k - vc.dataOffset).toNat
        (none, none) with hm | he
    · exact hd _ hm
    · rw [he]; left; rfl
  · split
    case isTrue h2 =>
      right
      refine ⟨_, _, rfl, ?_⟩
      apply ho
      omega
    case isFalse => left; rfl

theorem newWindow_all_ok (vc : VC) (index : Int)
    (hd : ∀ p ∈ vc.data, slotOK p) (ho : WfOK vc.org) :
    ∀ p ∈ vc.newWindow index, slotOK p := by
  intro p hp
  unfold VC.newWindow at hp
  rcases List.mem_map.mp hp with ⟨k, _, rfl⟩
  exact windowSlot_ok vc index k hd ho

attribute [irreducible] VC.newWindow

theorem installPairs_all_ok (d : List (Option Rat × Option Rat)) (r : Resampled) (n : Nat)
    (hd : ∀ p ∈ d, slotOK p) (hr : ∀ k, slotOK (r.readMin k, r.readMax k)) :
    ∀ p ∈ installPairs d r n, slotOK p := by
  induction n with
  | zero => exact hd
  | succ m ih =>
    intro p hp
    rw [installPairs_succ] at hp
    rcases List.mem_or_eq_of_mem_set hp with hm | he
    · exact ih p hm
    · rw [he]; exact hr m

theorem ensureStep_noop (s : Sys) (i : Int) (h : s.vc.noopGuard i = true) :
    ensureStep s i = s := by
  unfold ensureStep
  simp [h]

theorem ensureStep_eq_refresh (s : Sys) (i : Int) (h : s.vc.noopGuard i = false) :
    ensureStep s i =
      { vc := { s.vc with data := s.vc.newWindow i, dataOffset := i - maxWindowSize },
        fetches := s.fetches ++ [⟨i - maxWindowSize, i + maxWindowSize⟩],
        current := some s.fetches.length,
        abortedIds :=
          (match s.current with
           | some c => c :: s.abortedIds
           | none => s.abortedIds),
        delivered := s.delivered,
        cbCount := s.cbCount,
        urlCalls := s.urlCalls ++
          [(((i - maxWindowSize : Int) : Rat) * s.vc.spp / 48000,
            ((i + maxWindowSize : Int) : Rat) * s.vc.spp / 48000)] } := by
  unfold ensureStep
  simp [h]

theorem deliverStep_notEnabled (rel : Bool) (s : Sys) (id st : Nat) (resp : WfData)
    (h : ¬(id < s.fetches.length ∧ id ∉ s.delivered ∧ (rel = true → id ∉ s.abortedIds))) :
    deliverStep rel s id st resp = s := by
  unfold deliverStep
  rw [if_neg h]

theorem deliverStep_fail (rel : Bool) (s : Sys) (id st : Nat) (resp : WfData)
    (hen : id < s.fetches.length ∧ id ∉ s.delivered ∧ (rel = true → id ∉ s.abortedIds))
    (hst : st ≠ 200) :
    deliverStep rel s id st resp = { s with delivered := id :: s.delivered } := by
  unfold deliverStep
  rw [if_pos hen, if_pos hst]

theorem deliverStep_chanFail (rel : Bool) (s : Sys) (id st : Nat) (resp : WfData)
    (hen : id < s.fetches.length ∧ id ∉ s.delivered ∧ (rel = true → id ∉ s.abortedIds))
    (hst : st = 200) (hch : resp.channels ≠ 1) :
    deliverStep rel s id st resp = { s with delivered := id :: s.delivered } := by
  unfold deliverStep
  rw [if_pos hen, if_neg (fun hx => hx hst), if_pos hch]

theorem deliverStep_ok (rel : Bool) (s : Sys) (id st : Nat) (resp : WfData)
    (hen : id < s.fetches.length ∧ id ∉ s.delivered ∧ (rel = true → id ∉ s.abortedIds))
    (hst : st = 200) (hch : resp.channels = 1) :
    deliverStep rel s id st resp =
      { s with
        delivered := id :: s.delivered,
        vc := { s.vc with
                data := installPairs s.vc.data (libResample resp s.vc.spp)
                          (min ((s.fetches.getD id ⟨0, 0⟩).hi -
                            (s.fetches.getD id ⟨0, 0⟩).lo).toNat resp.length) },
        cbCount := s.cbCount + 1 } := by
  unfold deliverStep
  rw [if_pos hen, if_neg (fun hx => hx hst), if_neg (fun hx => hx hch)]

theorem sysInv_init (org : WfData) (spp : Rat) : SysInv (initSys org spp) := by
  constructor
  · intro c hc; cases hc
  · intro id hlen; cases hlen

theorem sysInv_ensure (s : Sys) (i : Int) (h : SysInv s) : SysInv (ensureStep s i) := by
  obtain ⟨h1, h2⟩ := h
  by_cases hg : s.vc.noopGuard i = true
  · rw [ensureStep_noop s i hg]; exact ⟨h1, h2⟩
  · rw [ensureStep_eq_refresh s i (by revert hg; cases s.vc.noopGuard i <;> simp)]
    constructor
    · intro c hc
      simp only [Option.some_inj] at hc
      subst hc
      simp [List.length_append]
    · intro id hlen hab hdel
      simp only [List.length_append, List.length_cons, List.length_nil] at hlen
      rcases Nat.lt_succ_iff_lt_or_eq.mp (by omega : id < s.fetches.length + 1) with hlt | heq
      · exfalso
        cases hcur : s.current with
        | none =>
          rw [hcur] at hab
          exact Option.noConfusion ((hcur ▸ h2 id hlt hab hdel) : none = some id)
        | some c =>
          rw [hcur] at hab
          have hne : id ≠ c := fun he => hab (he ▸ List.mem_cons_self c s.abortedIds)
          have : s.current = some id :=
            h2 id hlt (fun hm => hab (List.mem_cons_of_mem c hm)) hdel
          rw [hcur] at this
          exact hne (Option.some_inj.mp this).symm
      · subst heq; rfl

theorem sysInv_deliver (rel : Bool) (s : Sys) (id st : Nat) (resp : WfData)
    (h : SysInv s) : SysInv (deliverStep rel s id st resp) := by
  obtain ⟨h1, h2⟩ := h
  have gen : ∀ t : Sys, t.fetches = s.fetches → t.current = s.current →
      t.abortedIds = s.abortedIds → t.delivered = id :: s.delivered → SysInv t := by
    intro t hf hc ha hd
    constructor
    · intro c hcc; rw [hf]; exact h1 c (hc ▸ hcc)
    · intro j hj hja hjd
      rw [hc]
      apply h2 j (hf ▸ hj) (ha ▸ hja)
      intro hmem
      exact hjd (hd ▸ List.mem_cons_of_mem id hmem)
  by_cases hen : id < s.fetches.length ∧ id ∉ s.delivered ∧ (rel = true → id ∉ s.abortedIds)
  · by_cases hst : st = 200
    · by_cases hch : resp.channels = 1
      · rw [deliverStep_ok rel s id st resp hen hst hch]
        exact gen _ rfl rfl rfl rfl
      · rw [deliverStep_chanFail rel s id st resp hen hst hch]
        exact gen _ rfl rfl rfl rfl
    · rw [deliverStep_fail rel s id st resp hen hst]
      exact gen _ rfl rfl rfl rfl
  · rw [deliverStep_notEnabled rel s id st resp hen]
    exact ⟨h1, h2⟩

theorem sysInv_step (rel : Bool) (s : Sys) (e : Ev) (h : SysInv s) :
    SysInv (stepEv rel s e) := by
  cases e with
  | access i => exact sysInv_ensure s i h
  | deliver id st resp => exact sysInv_deliver rel s id st resp h

theorem sysInv_run (rel : Bool) (s : Sys) (evs : List Ev) (h : SysInv s) :
    SysInv (run rel s evs) := by
  induction evs generalizing s with
  | nil => exact h
  | cons e t ih => exact ih (stepEv rel s e) (sysInv_step rel s e h)

theorem staleDeliver_noop (s : Sys) (id st : Nat) (resp : WfData)
    (h : SysInv s) (hcur : s.current ≠ some id) :
    deliverStep true s id st resp = s := by
  apply deliverStep_notEnabled
  intro ⟨ha, hb, hc⟩
  exact hcur (h.2 id ha (hc rfl) hb)

theorem spanInv_init (org : WfData) (spp : Rat) : spanInv (initSys org spp) := by
  intro f hf; cases hf

theorem spanInv_step (rel : Bool) (s : Sys) (e : Ev) (h : spanInv s) :
    spanInv (stepEv rel s e) := by
  cases e with
  | access i =>
    show spanInv (ensureStep s i)
    by_cases hg : s.vc.noopGuard i = true
    · rw [ensureStep_noop s i hg]; exact h
    · rw [ensureStep_eq_refresh s i (by revert hg; cases s.vc.noopGuard i <;> simp)]
      intro f hf
      rcases List.mem_append.mp hf with hm | hm
      · exact h f hm
      · rw [List.mem_singleton.mp hm]
        show i + maxWindowSize - (i - maxWindowSize) = 2 * maxWindowSize
        ring
  | deliver id st resp =>
    show spanInv (deliverStep rel s id st resp)
    by_cases hen : id < s.fetches.length ∧ id ∉ s.delivered ∧ (rel = true → id ∉ s.abortedIds)
    · by_cases hst : st = 200
      · by_cases hch : resp.channels = 1
        · rw [deliverStep_ok rel s id st resp hen hst hch]; exact h
        · rw [deliverStep_chanFail rel s id st resp hen hst hch]; exact h
      · rw [deliverStep_fail rel s id st resp hen hst]; exact h
    · rw [deliverStep_notEnabled rel s id st resp hen]; exact h

theorem spanInv_run (rel : Bool) (s : Sys) (evs : List Ev) (h : spanInv s) :
    spanInv (run rel s evs) := by
  induction evs generalizing s with
  | nil => exact h
  | cons e t ih => exact ih (stepEv rel s e) (spanInv_step rel s e h)

theorem lenInv_step (rel : Bool) (s : Sys) (e : Ev) (h : lenInv s) :
    lenInv (stepEv rel s e) := by
  cases e with
  | access i =>
    show lenInv (ensureStep s i)
    by_cases hg : s.vc.noopGuard i = true
    · rw [ensureStep_noop s i hg]; exact h
    · rw [ensureStep_eq_refresh s i (by revert hg; cases s.vc.noopGuard i <;> simp)]
      intro _
      exact length_newWindow s.vc i
  | deliver id st resp =>
    show lenInv (deliverStep rel s id st resp)
    by_cases hen : id < s.fetches.length ∧ id ∉ s.delivered ∧ (rel = true → id ∉ s.abortedIds)
    · by_cases hst : st = 200
      · by_cases hch : resp.channels = 1
        · rw [deliverStep_ok rel s id st resp hen hst hch]
          intro hf
          show (installPairs s.vc.data _ _).length = windowSpan
          rw [installPairs_length]
          exact h hf
        · rw [deliverStep_chanFail rel s id st resp hen hst hch]; exact h
      · rw [deliverStep_fail rel s id st resp hen hst]; exact h
    · rw [deliverStep_notEnabled rel s id st resp hen]; exact h

theorem lenInv_run (rel : Bool) (s : Sys) (evs : List Ev) (h : lenInv s) :
    lenInv (run rel s evs) := by
  induction evs generalizing s with
  | nil => exact h
  | cons e t ih => exact ih (stepEv rel s e) (lenInv_step rel s e h)

theorem stepEv_org (rel : Bool) (s : Sys) (e : Ev) :
    (stepEv rel s e).vc.org = s.vc.org := by
  cases e with
  | access i =>
    show (ensureStep s i).vc.org = s.vc.org
    by_cases hg : s.vc.noopGuard i = true
    · rw [ensureStep_noop s i hg]
    · rw [ensureStep_eq_refresh s i (by revert hg; cases s.vc.noopGuard i <;> simp)]
  | deliver id st resp =>
    show (deliverStep rel s id st resp).vc.org = s.vc.org
    by_cases hen : id < s.fetches.length ∧ id ∉ s.delivered ∧ (rel = true → id ∉ s.abortedIds)
    · by_cases hst : st = 200
      · by_cases hch : resp.channels = 1
        · rw [deliverStep_ok rel s id st resp hen hst hch]
        · rw [deliverStep_chanFail rel s id st resp hen hst hch]
      · rw [deliverStep_fail rel s id st resp hen hst]
    · rw [deliverStep_notEnabled rel s id st resp hen]

theorem dataOK_step (rel : Bool) (s : Sys) (e : Ev)
    (hd : ∀ p ∈ s.vc.data, slotOK p) (ho : WfOK s.vc.org) (he : evRespOK e) :
    ∀ p ∈ (stepEv rel s e).vc.data, slotOK p := by
  cases e with
  | access i =>
    show ∀ p ∈ (ensureStep s i).vc.data, slotOK p
    by_cases hg : s.vc.noopGuard i = true
    · rw [ensureStep_noop s i hg]; exact hd
    · rw [ensureStep_eq_refresh s i (by revert hg; cases s.vc.noopGuard i <;> simp)]
      exact newWindow_all_ok s.vc i hd ho
  | deliver id st resp =>
    show ∀ p ∈ (deliverStep rel s id st resp).vc.data, slotOK p
    by_cases hen : id < s.fetches.length ∧ id ∉ s.delivered ∧ (rel = true → id ∉ s.abortedIds)
    · by_cases hst : st = 200
      · by_cases hch : resp.channels = 1
        · rw [deliverStep_ok rel s id st resp hen hst hch]
          exact installPairs_all_ok s.vc.data (libResample resp s.vc.spp) _ hd
            (libResample_pair_ok resp s.vc.spp he)
        · rw [deliverStep_chanFail rel s id st resp hen hst hch]; exact hd
      · rw [deliverStep_fail rel s id st resp hen hst]; exact hd
    · rw [deliverStep_notEnabled rel s id st resp hen]; exact hd

theorem dataOK_run (rel : Bool) (s : Sys) (evs : List Ev)
    (ho : WfOK s.vc.org) (hd : ∀ p ∈ s.vc.data, slotOK p)
    (he : ∀ e ∈ evs, evRespOK e) :
    ∀ p ∈ (run rel s evs).vc.data, slotOK p := by
  induction evs generalizing s with
  | nil => exact hd
  | cons e t ih =>
    apply ih (stepEv rel s e)
    · rw [stepEv_org]; exact ho
    · exact dataOK_step rel s e hd ho (he e (List.mem_cons_self e t))
    · intro x hx; exact he x (List.mem_cons_of_mem e hx)

theorem noopGuard_iff (vc : VC) (i : Int) :
    vc.noopGuard i = true ↔
      (vc.dataOffset ≤ i ∧ i ≤ vc.dataOffset + (vc.data.length : Int)) := by
  simp [VC.noopGuard]

theorem noopGuard_false (vc : VC) (i : Int)
    (h : ¬(vc.dataOffset ≤ i ∧ i ≤ vc.dataOffset + (vc.data.length : Int))) :
    vc.noopGuard i = false := by
  cases hg : vc.noopGuard i
  · rfl
  · exact absurd ((noopGuard_iff vc i).mp hg) h

theorem dataRead_after_refresh (s : Sys) (i j : Int) (hg : s.vc.noopGuard i = false)
    (h1 : i - maxWindowSize ≤ j) (h2 : j < i + maxWindowSize) :
    (ensureStep s i).vc.dataRead j =
      s.vc.windowSlot i (j - (i - maxWindowSize)).toNat := by
  rw [ensureStep_eq_refresh s i hg]
  unfold VC.dataRead
  dsimp only
  rw [if_pos (by omega : (0 : Int) ≤ j - (i - maxWindowSize))]
  apply getD_newWindow
  simp only [maxWindowSize, windowSpan] at h1 h2 ⊢
  omega

/-- Claim C5, counterexample: the claim states that ensureIndexAvailable(i)
is a no-op if and only if i lies in the half-open resident window
[offset, offset + size), including on the freshly constructed channel.  On a
fresh channel the window is empty, so the claim demands a fetch for index 0;
the source guard uses a closed upper bound (index <= offset + size), so the
access to index 0 changes no state and issues no fetch. -/
theorem claim5_counterexample :
    ensureStep (initSys orgEmpty 2) 0 = initSys orgEmpty 2 ∧
    (ensureStep (initSys orgEmpty 2) 0).fetches.length = 0 ∧
    ¬((initSys orgEmpty 2).vc.dataOffset ≤ 0 ∧
      0 < (initSys orgEmpty 2).vc.dataOffset +
        ((initSys orgEmpty 2).vc.data.length : Int)) := by
  have h := ensureStep_noop (initSys orgEmpty 2) 0 (by decide)
  exact ⟨h, by rw [h]; rfl, by decide⟩

/-- Claim C5, amended: ensureIndexAvailable(i) is a no-op (changes no state
and issues no fetch) if and only if offset <= i <= offset + size, a closed
interval one index wider than the resident window; an access outside that
range triggers exactly one new fetch and calls abort on at most one previous
fetch, and any subsequent access to an index inside the freshly installed
window triggers zero fetches.  This holds for every channel state. -/
theorem claim5_amended (s : Sys) (i : Int) :
    ((s.vc.dataOffset ≤ i ∧ i ≤ s.vc.dataOffset + (s.vc.data.length : Int)) →
      ensureStep s i = s) ∧
    (¬(s.vc.dataOffset ≤ i ∧ i ≤ s.vc.dataOffset + (s.vc.data.length : Int)) →
      (ensureStep s i).fetches.length = s.fetches.length + 1 ∧
      (ensureStep s i).abortedIds.length ≤ s.abortedIds.length + 1 ∧
      (ensureStep s i).current = some s.fetches.length ∧
      (∀ j : Int, i - maxWindowSize ≤ j → j < i + maxWindowSize →
        ensureStep (ensureStep s i) j = ensureStep s i)) := by
  constructor
  · intro h
    exact ensureStep_noop s i ((noopGuard_iff s.vc i).mpr h)
  · intro h
    have hg := noopGuard_false s.vc i h
    rw [ensureStep_eq_refresh s i hg]
    refine ⟨by simp, ?_, rfl, ?_⟩
    · cases s.current <;> simp
    · intro j hj1 hj2
      apply ensureStep_noop
      apply (noopGuard_iff _ _).mpr
      refine ⟨hj1, ?_⟩
      show j ≤ i - maxWindowSize + ((s.vc.newWindow i).length : Int)
      rw [length_newWindow]
      simp only [maxWindowSize, windowSpan] at hj2 ⊢
      omega

/-- Claim C5, witness: on a fresh channel the access to index 0 is a no-op
by the closed guard, and after a refresh at index 3000 a second access at
3005 (inside the fresh window) changes nothing. -/
theorem claim5_witness :
    ensureStep (initSys orgSeed 512) 0 = initSys orgSeed 512 ∧
    ensureStep (ensureStep (initSys orgSeed 512) 3000) 3005 =
      ensureStep (initSys orgSeed 512) 3000 := by
  constructor
  · exact (claim5_amended (initSys orgSeed 512) 0).1 (by decide)
  · exact (((claim5_amended (initSys orgSeed 512) 3000).2 (by decide)).2.2.2)
      3005 (by decide) (by decide)

/-- Claim C4, counterexample: the claim states that the detail request uses
the time range (from * samplesPerPixel / sampleRate, to * samplesPerPixel /
sampleRate) where sampleRate is the backing waveform sample rate, for every
backing waveform.  With a backing waveform at 44100 Hz the source still
divides by the hardcoded constant 48000, and the two values differ. -/
theorem claim4_counterexample :
    (ensureStep (initSys org44 512) 3000).urlCalls =
      [((1000 : Rat) * 512 / 48000, (5000 : Rat) * 512 / 48000)] ∧
    (1000 : Rat) * 512 / 48000 ≠
      (1000 : Rat) * 512 / (initSys org44 512).vc.org.sample_rate := by
  constructor
  · rw [ensureStep_eq_refresh _ _ (by decide)]
    show [] ++ [(((3000 - maxWindowSize : Int) : Rat) * 512 / 48000,
      ((3000 + maxWindowSize : Int) : Rat) * 512 / 48000)] = _
    simp only [List.nil_append, List.cons.injEq, Prod.mk.injEq, and_true]
    norm_num [maxWindowSize]
  · show (1000 : Rat) * 512 / 48000 ≠ (1000 : Rat) * 512 / 44100
    norm_num

/-- Claim C4, amended: for every window refresh installing the span
[from, to), the detail request function is invoked with the pair
(from * samplesPerPixel / 48000, to * samplesPerPixel / 48000): the
pixel-to-time conversion divides by the constant 48000, not by the backing
waveform sample rate, so it matches the claimed formula exactly when that
sample rate is 48000. -/
theorem claim4_amended (s : Sys) (i : Int)
    (h : ¬(s.vc.dataOffset ≤ i ∧ i ≤ s.vc.dataOffset + (s.vc.data.length : Int))) :
    (ensureStep s i).urlCalls = s.urlCalls ++
      [(((i - maxWindowSize : Int) : Rat) * s.vc.spp / 48000,
        ((i + maxWindowSize : Int) : Rat) * s.vc.spp / 48000)] := by
  rw [ensureStep_eq_refresh s i (noopGuard_false s.vc i h)]

/-- Claim C4, witness: the refresh at index 3000 on a fresh channel with
samples per pixel 512 calls the provider with (1000 * 512 / 48000,
5000 * 512 / 48000). -/
theorem claim4_witness :
    (ensureStep (initSys orgSeed 512) 3000).urlCalls =
      [] ++ [(((3000 - maxWindowSize : Int) : Rat) * 512 / 48000,
        ((3000 + maxWindowSize : Int) : Rat) * 512 / 48000)] :=
  claim4_amended (initSys orgSeed 512) 3000 (by decide)

/-- Claim C6, code bug: the claim (like the class doc comment, which says the
virtual array is 0 except on the resident range, and like the earlier
revision of this class, whose accessors returned 0 explicitly) states that
min_sample and max_sample return the number 0 at unpopulated indices.  The
source returns the raw array slot, and an unpopulated slot is a hole that
reads as undefined, not 0: on a fresh channel over a zero length backing
waveform, min_sample(5) and max_sample(5) install an all-hole window and
return undefined. -/
theorem claim6_bug :
    (minSampleRun (initSys orgEmpty 2) 5).1 = none ∧
    (minSampleRun (initSys orgEmpty 2) 5).1 ≠ some 0 ∧
    (maxSampleRun (initSys orgEmpty 2) 5).1 = none ∧
    (maxSampleRun (initSys orgEmpty 2) 5).1 ≠ some 0 := by
  have h : (ensureStep (initSys orgEmpty 2) 5).vc.dataRead 5 =
      (initSys orgEmpty 2).vc.windowSlot 5 (5 - (5 - maxWindowSize)).toNat :=
    dataRead_after_refresh (initSys orgEmpty 2) 5 5 (by decide) (by decide) (by decide)
  have h2 : (initSys orgEmpty 2).vc.windowSlot 5 (5 - (5 - maxWindowSize)).toNat =
      (none, none) := by
    unfold VC.windowSlot
    dsimp only
    rw [if_neg (by decide), if_neg ?hseed]
    case hseed =>
      intro hcon
      have : ((initSys orgEmpty 2).vc.org.length : Int) = 0 := by decide
      omega
  unfold minSampleRun maxSampleRun
  dsimp only
  rw [h, h2]
  exact ⟨rfl, by simp, rfl, by simp⟩

/-- Claim C3, counterexample: the claim states that a slot whose mapped
backing index is out of the backing range is 0.  Over a zero length backing
waveform every seed mapping is out of range, and the freshly installed slot
holds no value at all (a hole reading as undefined), not the number 0. -/
theorem claim3_counterexample :
    (ensureStep (initSys orgEmpty 2) 3000).vc.data.getD 0 (none, none) = (none, none) ∧
    (ensureStep (initSys orgEmpty 2) 3000).vc.data.getD 0 (none, none) ≠
      (some 0, some 0) := by
  have h : (ensureStep (initSys orgEmpty 2) 3000).vc.data.getD 0 (none, none) =
      (initSys orgEmpty 2).vc.windowSlot 3000 0 := by
    rw [ensureStep_eq_refresh _ _ (by decide)]
    exact getD_newWindow _ _ 0 (by decide)
  have h2 : (initSys orgEmpty 2).vc.windowSlot 3000 0 = (none, none) := by
    unfold VC.windowSlot
    dsimp only
    rw [if_neg (by decide), if_neg ?h3]
    case h3 =>
      intro hcon
      have : ((initSys orgEmpty 2).vc.org.length : Int) = 0 := by decide
      omega
  rw [h, h2]
  exact ⟨rfl, by simp⟩

/-- Claim C3, amended: when ensureIndexAvailable installs a new window span,
slot k holds exactly the construction loop value: an index of the new span
that lay inside the previous window keeps its (min, max) pair unchanged;
every other index is seeded from the backing channel at
round(0.5 + newIndex * samplesPerPixel / backingScale) whenever that index is
inside [0, backingLength), and is left unpopulated (a hole reading as
undefined, not the number 0) when the mapped index is out of range. -/
theorem claim3_amended (s : Sys) (i : Int) (k : Nat) (hk : k < windowSpan)
    (hg : ¬(s.vc.dataOffset ≤ i ∧ i ≤ s.vc.dataOffset + (s.vc.data.length : Int))) :
    ((ensureStep s i).vc.data.getD k (none, none) = s.vc.windowSlot i k) ∧
    (s.vc.in_range (i - maxWindowSize + (k : Int)) = true →
      s.vc.windowSlot i k = s.vc.pairAt (i - maxWindowSize + (k : Int))) ∧
    (s.vc.in_range (i - maxWindowSize + (k : Int)) = false →
      ((0 ≤ s.vc.seedIdx (i - maxWindowSize + (k : Int)) ∧
        s.vc.seedIdx (i - maxWindowSize + (k : Int)) < (s.vc.org.length : Int)) →
        s.vc.windowSlot i k =
          (some (s.vc.org.minS (s.vc.seedIdx (i - maxWindowSize + (k : Int))).toNat),
           some (s.vc.org.maxS (s.vc.seedIdx (i - maxWindowSize + (k : Int))).toNat))) ∧
      (¬(0 ≤ s.vc.seedIdx (i - maxWindowSize + (k : Int)) ∧
        s.vc.seedIdx (i - maxWindowSize + (k : Int)) < (s.vc.org.length : Int)) →
        s.vc.windowSlot i k = (none, none))) := by
  refine ⟨?_, ?_, ?_⟩
  · rw [ensureStep_eq_refresh s i (noopGuard_false s.vc i hg)]
    exact getD_newWindow s.vc i k hk
  · intro h
    unfold VC.windowSlot
    dsimp only
    rw [if_pos h]
  · intro h
    constructor
    · intro h2
      unfold VC.windowSlot
      dsimp only
      rw [if_neg (by simp [h]), if_pos h2]
    · intro h2
      unfold VC.windowSlot
      dsimp only
      rw [if_neg (by simp [h]), if_neg h2]

/-- Claim C3, witness: on a fresh channel with samples per pixel 512 over a
100 point backing waveform whose pair at j is (j, j + 1), the refresh at
index 50 seeds slot 2000 (virtual index 50) from backing index
round(0.5 + 50 * 512 / 512) = 51, producing the pair (51, 52). -/
theorem claim3_witness :
    (ensureStep (initSys orgSeed 512) 50).vc.data.getD 2000 (none, none) =
      (initSys orgSeed 512).vc.windowSlot 50 2000 ∧
    (initSys orgSeed 512).vc.windowSlot 50 2000 = (some 51, some 52) := by
  have hamend := claim3_amended (initSys orgSeed 512) 50 2000 (by decide) (by decide)
  have hseed : (initSys orgSeed 512).vc.seedIdx (50 - maxWindowSize + ((2000 : Nat) : Int)) =
      51 := by
    unfold VC.seedIdx jsRound
    show (⌊1 / 2 + ((50 - maxWindowSize + ((2000 : Nat) : Int) : Int) : Rat) *
      (512 : Rat) / (512 : Rat) + 1 / 2⌋ : Int) = 51
    norm_num [maxWindowSize]
  refine ⟨hamend.1, ?_⟩
  rw [(hamend.2.2 (by decide)).1 (by rw [hseed]; exact ⟨by omega, by decide⟩)]
  rw [hseed]
  show ((some ((((51 : Int).toNat : Nat) : Rat)),
    some ((((51 : Int).toNat : Nat) : Rat) + 1)) : Option Rat × Option Rat) = _
  simp only [show (51 : Int).toNat = (51 : Nat) from rfl]
  norm_num

/-- Claim C7: when a background detail fetch fails (non 200 HTTP status,
abort, or transport error, the last having no handler at all in the source),
the channel state is unchanged: window data, offset, fetch list, current
xhr and url calls keep their values, the refresh callback is not invoked,
and no automatic retry is issued; a later out-of-window access issues
exactly one fresh attempt. -/
theorem claim7_failure_keeps_state (rel : Bool) (s : Sys) (id st : Nat) (resp : WfData) :
    (st ≠ 200 →
      (deliverStep rel s id st resp).vc = s.vc ∧
      (deliverStep rel s id st resp).cbCount = s.cbCount ∧
      (deliverStep rel s id st resp).fetches = s.fetches ∧
      (deliverStep rel s id st resp).urlCalls = s.urlCalls ∧
      (deliverStep rel s id st resp).current = s.current) ∧
    (id ∈ s.abortedIds → deliverStep true s id st resp = s) ∧
    (st ≠ 200 → ∀ i : Int,
      ¬(s.vc.dataOffset ≤ i ∧ i ≤ s.vc.dataOffset + (s.vc.data.length : Int)) →
      (ensureStep (deliverStep rel s id st resp) i).fetches.length =
        s.fetches.length + 1) := by
  have key : st ≠ 200 →
      deliverStep rel s id st resp = s ∨
      deliverStep rel s id st resp = { s with delivered := id :: s.delivered } := by
    intro hst
    by_cases hen : id < s.fetches.length ∧ id ∉ s.delivered ∧
        (rel = true → id ∉ s.abortedIds)
    · right; exact deliverStep_fail rel s id st resp hen hst
    · left; exact deliverStep_notEnabled rel s id st resp hen
  refine ⟨?_, ?_, ?_⟩
  · intro hst
    rcases key hst with h | h <;> rw [h] <;> exact ⟨rfl, rfl, rfl, rfl, rfl⟩
  · intro hab
    apply deliverStep_notEnabled
    intro hcon
    exact hcon.2.2 rfl hab
  · intro hst i hwin
    rcases key hst with h | h
    · rw [h, ensureStep_eq_refresh s i (noopGuard_false s.vc i hwin)]
      simp
    · rw [h, ensureStep_eq_refresh { s with delivered := id :: s.delivered } i
        (noopGuard_false s.vc i hwin)]
      simp

/-- Claim C7, witness: after the refresh at index 3000, delivering a 404 for
the in-flight fetch leaves the channel and callback count unchanged, and the
next out-of-window access at 10000 issues exactly one fresh fetch. -/
theorem claim7_witness :
    (deliverStep true (ensureStep (initSys orgSeed 512) 3000) 0 404
      (respFine 0 0)).vc = (ensureStep (initSys orgSeed 512) 3000).vc ∧
    (deliverStep true (ensureStep (initSys orgSeed 512) 3000) 0 404
      (respFine 0 0)).cbCount = (ensureStep (initSys orgSeed 512) 3000).cbCount ∧
    (ensureStep (deliverStep true (ensureStep (initSys orgSeed 512) 3000) 0 404
      (respFine 0 0)) 10000).fetches.length =
      (ensureStep (initSys orgSeed 512) 3000).fetches.length + 1 := by
  have hcl := claim7_failure_keeps_state true (ensureStep (initSys orgSeed 512) 3000)
    0 404 (respFine 0 0)
  have hoff : (ensureStep (initSys orgSeed 512) 3000).vc.dataOffset = 1000 := by
    rw [ensureStep_eq_refresh _ _ (by decide)]
    decide
  have hlen : (ensureStep (initSys orgSeed 512) 3000).vc.data.length = windowSpan := by
    rw [ensureStep_eq_refresh _ _ (by decide)]
    exact length_newWindow _ _
  have hwin : ¬((ensureStep (initSys orgSeed 512) 3000).vc.dataOffset ≤ 10000 ∧
      10000 ≤ (ensureStep (initSys orgSeed 512) 3000).vc.dataOffset +
        ((ensureStep (initSys orgSeed 512) 3000).vc.data.length : Int)) := by
    intro hcon
    rw [hoff, hlen] at hcon
    revert hcon
    decide
  exact ⟨(hcl.1 (by decide)).1, (hcl.1 (by decide)).2.1, hcl.2.2 (by decide) 10000 hwin⟩

/-- Claim C8, counterexample: the claim states min_sample(i) <= max_sample(i)
for every index inside the resident window.  Over a zero length backing
waveform, the refresh at 3000 installs a window of holes; index 1500 lies
inside the resident window, the accessors change no state, and both return
undefined rather than numbers, so no inequality between numbers holds
there. -/
theorem claim8_counterexample :
    (ensureStep (initSys orgEmpty 2) 3000).vc.dataOffset ≤ 1500 ∧
    (1500 : Int) < (ensureStep (initSys orgEmpty 2) 3000).vc.dataOffset +
      ((ensureStep (initSys orgEmpty 2) 3000).vc.data.length : Int) ∧
    (minSampleRun (ensureStep (initSys orgEmpty 2) 3000) 1500).1 = none ∧
    (maxSampleRun (ensureStep (initSys orgEmpty 2) 3000) 1500).1 = none ∧
    (minSampleRun (ensureStep (initSys orgEmpty 2) 3000) 1500).2 =
      ensureStep (initSys orgEmpty 2) 3000 := by
  have hoff : (ensureStep (initSys orgEmpty 2) 3000).vc.dataOffset = 1000 := by
    rw [ensureStep_eq_refresh _ _ (by decide)]
    decide
  have hlen : (ensureStep (initSys orgEmpty 2) 3000).vc.data.length = windowSpan := by
    rw [ensureStep_eq_refresh _ _ (by decide)]
    exact length_newWindow _ _
  have hread : (ensureStep (initSys orgEmpty 2) 3000).vc.dataRead 1500 =
      (initSys orgEmpty 2).vc.windowSlot 3000 (1500 - (3000 - maxWindowSize)).toNat :=
    dataRead_after_refresh (initSys orgEmpty 2) 3000 1500 (by decide) (by decide) (by decide)
  have hslot : (initSys orgEmpty 2).vc.windowSlot 3000 (1500 - (3000 - maxWindowSize)).toNat =
      (none, none) := by
    unfold VC.windowSlot
    dsimp only
    rw [if_neg (by decide), if_neg ?h3]
    case h3 =>
      intro hcon
      have : ((initSys orgEmpty 2).vc.org.length : Int) = 0 := by decide
      omega
  have hnoop : ensureStep (ensureStep (initSys orgEmpty 2) 3000) 1500 =
      ensureStep (initSys orgEmpty 2) 3000 := by
    apply ensureStep_noop
    apply (noopGuard_iff _ _).mpr
    constructor
    · rw [hoff]; decide
    · rw [hoff, hlen]; decide
  refine ⟨by rw [hoff]; decide, by rw [hoff, hlen]; decide, ?_, ?_, ?_⟩
  · unfold minSampleRun
    dsimp only
    rw [hnoop, hread, hslot]
  · unfold maxSampleRun
    dsimp only
    rw [hnoop, hread, hslot]
  · unfold minSampleRun
    dsimp only
    rw [hnoop]

/-- Claim C8, amended: at every populated slot of the resident window the
pair is two numbers with min <= max, under the assumptions that the backing
channel and every delivered response satisfy min <= max at every index they
hold; unpopulated slots (and reads outside the window) are undefined (the
none pair), not number pairs.  The invariant holds in every reachable state:
every read of the window data is either the undefined pair or a populated
pair (some m, some M) with m <= M, preserved by seeding, carry-over, and
installation of resampled responses. -/
theorem claim8_amended (rel : Bool) (org : WfData) (spp : Rat) (evs : List Ev)
    (ho : WfOK org) (he : ∀ e ∈ evs, evRespOK e) :
    ∀ i : Int, slotOK ((run rel (initSys org spp) evs).vc.dataRead i) := by
  have hall : ∀ p ∈ (run rel (initSys org spp) evs).vc.data, slotOK p :=
    dataOK_run rel (initSys org spp) evs ho
      (fun p hp => absurd hp (List.not_mem_nil p)) he
  intro i
  unfold VC.dataRead
  split
  · rcases getD_mem_or_eq (run rel (initSys org spp) evs).vc.data
        (i - (run rel (initSys org spp) evs).vc.dataOffset).toNat (none, none) with hm | he2
    · exact hall _ hm
    · rw [he2]; left; rfl
  · left; rfl

/-- Claim C8, witness: after one access on a channel backed by the 100 point
waveform with pairs (j, j + 1), the read at index 1500 satisfies the slot
invariant. -/
theorem claim8_witness :
    slotOK ((run false (initSys orgSeed 512) [Ev.access 3000]).vc.dataRead 1500) := by
  apply claim8_amended false orgSeed 512 [Ev.access 3000]
  · intro j hj
    show (j : Rat) ≤ (j : Rat) + 1
    linarith
  · intro e he
    rw [List.mem_singleton] at he
    subst he
    trivial

theorem respFine_block (m M : Rat) : resampleBlock (respFine m M) 2 0 = [0] := by
  unfold resampleBlock respFine
  dsimp only
  rw [show List.range 1 = [0] from rfl]
  rw [List.filter_cons]
  rw [if_pos ?hp, List.filter_nil]
  case hp =>
    rw [Bool.and_eq_true, decide_eq_true_eq, decide_eq_true_eq]
    constructor <;> norm_num

theorem respFine_resampled (m M : Rat) :
    (libResample (respFine m M) 2).length = 1 ∧
    (libResample (respFine m M) 2).readMin 0 = some m ∧
    (libResample (respFine m M) 2).readMax 0 = some M := by
  have hL : (libResample (respFine m M) 2).length = 1 := by
    show (⌈(((1 : Nat) : Rat)) * 2 / 2⌉).toNat = 1
    have h1 : ((((1 : Nat) : Rat)) * 2 / 2 : Rat) = 1 := by norm_num
    rw [h1, Int.ceil_one]
    rfl
  refine ⟨hL, ?_, ?_⟩
  · unfold Resampled.readMin
    rw [if_pos (by rw [hL]; decide)]
    show some (listMinD (respFine m M).minS (resampleBlock (respFine m M) 2 0)) = some m
    rw [respFine_block]
    rfl
  · unfold Resampled.readMax
    rw [if_pos (by rw [hL]; decide)]
    show some (listMaxD (respFine m M).maxS (resampleBlock (respFine m M) 2 0)) = some M
    rw [respFine_block]
    rfl

/-- Claim C1, amended: every window refresh calls abort on the previous
outstanding fetch before sending the new one, and in every reachable state
at most one fetch is in flight.  Under reliable abort semantics (the browser
guarantee that an aborted request never fires its load handler) the delivery
of any fetch other than the current one is a no-op, so a stale response
never overwrites window data installed by a more recent refresh.  The source
has no generation tagging, so this protection holds only while the abort
suppresses delivery; see the counterexample for abort treated as best
effort. -/
theorem claim1_amended (org : WfData) (spp : Rat) (evs : List Ev) :
    (∀ (s : Sys) (i : Int) (c : Nat),
      ¬(s.vc.dataOffset ≤ i ∧ i ≤ s.vc.dataOffset + (s.vc.data.length : Int)) →
      s.current = some c →
      c ∈ (ensureStep s i).abortedIds ∧
      (ensureStep s i).fetches.length = s.fetches.length + 1 ∧
      (ensureStep s i).current = some s.fetches.length) ∧
    (∀ id1 id2 : Nat,
      inFlight (run true (initSys org spp) evs) id1 →
      inFlight (run true (initSys org spp) evs) id2 → id1 = id2) ∧
    (∀ (id st : Nat) (resp : WfData),
      (run true (initSys org spp) evs).current ≠ some id →
      deliverStep true (run true (initSys org spp) evs) id st resp =
        run true (initSys org spp) evs) := by
  have hinv : SysInv (run true (initSys org spp) evs) :=
    sysInv_run true (initSys org spp) evs (sysInv_init org spp)
  refine ⟨?_, ?_, ?_⟩
  · intro s i c hg hc
    rw [ensureStep_eq_refresh s i (noopGuard_false s.vc i hg)]
    refine ⟨?_, by simp, rfl⟩
    rw [hc]
    exact List.mem_cons_self c s.abortedIds
  · intro id1 id2 h1 h2
    have e1 := hinv.2 id1 h1.1 h1.2.1 h1.2.2
    have e2 := hinv.2 id2 h2.1 h2.2.1 h2.2.2
    exact Option.some_inj.mp (e1.symm.trans e2)
  · intro id st resp hcur
    exact staleDeliver_noop (run true (initSys org spp) evs) id st resp hinv hcur

/-- Claim C1, witness: after one refresh there is a current fetch 0; a
second refresh aborts it, and under reliable abort semantics delivering a
response for a fetch id that is not current changes nothing. -/
theorem claim1_witness :
    0 ∈ (ensureStep (ensureStep (initSys orgSeed 512) 3000) 10000).abortedIds ∧
    deliverStep true (run true (initSys orgSeed 512) [Ev.access 3000]) 5 200
      (respFine 1 2) = run true (initSys orgSeed 512) [Ev.access 3000] := by
  have hcl := claim1_amended orgSeed 512 [Ev.access 3000]
  have hoff1 : (ensureStep (initSys orgSeed 512) 3000).vc.dataOffset = 1000 := by
    rw [ensureStep_eq_refresh _ _ (by decide)]
    decide
  have hlen1 : (ensureStep (initSys orgSeed 512) 3000).vc.data.length = windowSpan := by
    rw [ensureStep_eq_refresh _ _ (by decide)]
    exact length_newWindow _ _
  have hcur1 : (ensureStep (initSys orgSeed 512) 3000).current = some 0 := by
    rw [ensureStep_eq_refresh _ _ (by decide)]
    rfl
  constructor
  · refine (hcl.1 (ensureStep (initSys orgSeed 512) 3000) 10000 0 ?_ hcur1).1
    intro hcon
    rw [hoff1, hlen1] at hcon
    revert hcon
    decide
  · apply hcl.2.2 5 200 (respFine 1 2)
    show (ensureStep (initSys orgSeed 512) 3000).current ≠ some 5
    rw [hcur1]
    simp

/-- Claim C1, counterexample: the claim states that a stale response never
overwrites data installed by a more recent window refresh under any
completion order, without relying on the abort taking effect.  With abort
treated as best effort (reliable = false: a response may still arrive for an
aborted fetch), the trace access 3000, access 10000, deliver fetch 1,
deliver fetch 0 shows: fetch 0 is aborted by the second refresh, fetch 1
installs (5, 7) at the new window base (index 8000), and then the stale
response of the aborted fetch 0 overwrites that slot with (9, 9), because
the load handler has no generation check and writes into the current window
array unconditionally. -/
theorem claim1_counterexample :
    0 ∈ (run false (initSys orgEmpty 2) [Ev.access 3000, Ev.access 10000]).abortedIds ∧
    (run false (initSys orgEmpty 2) [Ev.access 3000, Ev.access 10000,
      Ev.deliver 1 200 (respFine 5 7)]).vc.dataRead 8000 = (some 5, some 7) ∧
    (run false (initSys orgEmpty 2) [Ev.access 3000, Ev.access 10000,
      Ev.deliver 1 200 (respFine 5 7), Ev.deliver 0 200 (respFine 9 9)]).vc.dataRead 8000 =
      (some 9, some 9) := by
  have e1 := ensureStep_eq_refresh (initSys orgEmpty 2) 3000 (by decide)
  have hoff1 : (ensureStep (initSys orgEmpty 2) 3000).vc.dataOffset = 1000 := by
    rw [e1]; decide
  have hlen1 : (ensureStep (initSys orgEmpty 2) 3000).vc.data.length = windowSpan := by
    rw [e1]; exact length_newWindow _ _
  have hcur1 : (ensureStep (initSys orgEmpty 2) 3000).current = some 0 := by
    rw [e1]; rfl
  have hg1 : (ensureStep (initSys orgEmpty 2) 3000).vc.noopGuard 10000 = false := by
    apply noopGuard_false
    intro hcon
    rw [hoff1, hlen1] at hcon
    revert hcon
    decide
  have e2 := ensureStep_eq_refresh (ensureStep (initSys orgEmpty 2) 3000) 10000 hg1
  have hab2 : 0 ∈ (ensureStep (ensureStep (initSys orgEmpty 2) 3000) 10000).abortedIds := by
    rw [e2, hcur1]
    exact List.mem_cons_self 0 (ensureStep (initSys orgEmpty 2) 3000).abortedIds
  have hflen2 : (ensureStep (ensureStep (initSys orgEmpty 2) 3000) 10000).fetches.length = 2 := by
    rw [e2, e1]; rfl
  have hdel2 : (ensureStep (ensureStep (initSys orgEmpty 2) 3000) 10000).delivered = [] := by
    rw [e2, e1]; rfl
  have hget2 : (ensureStep (ensureStep (initSys orgEmpty 2) 3000) 10000).fetches.getD 1
      ⟨0, 0⟩ = ⟨8000, 12000⟩ := by
    rw [e2, e1]; rfl
  have hoff2 : (ensureStep (ensureStep (initSys orgEmpty 2) 3000) 10000).vc.dataOffset =
      8000 := by
    rw [e2]; decide
  have hlen2 : (ensureStep (ensureStep (initSys orgEmpty 2) 3000) 10000).vc.data.length =
      windowSpan := by
    rw [e2]; exact length_newWindow _ _
  have hspp2 : (ensureStep (ensureStep (initSys orgEmpty 2) 3000) 10000).vc.spp = 2 := by
    rw [e2, e1]; rfl
  have hen3 : 1 < (ensureStep (ensureStep (initSys orgEmpty 2) 3000) 10000).fetches.length ∧
      1 ∉ (ensureStep (ensureStep (initSys orgEmpty 2) 3000) 10000).delivered ∧
      ((false = true) → 1 ∉ (ensureStep (ensureStep (initSys orgEmpty 2) 3000)
        10000).abortedIds) := by
    refine ⟨by rw [hflen2]; decide, by rw [hdel2]; exact List.not_mem_nil 1,
      fun h => absurd h (by decide)⟩
  have e3 := deliverStep_ok false (ensureStep (ensureStep (initSys orgEmpty 2) 3000) 10000)
    1 200 (respFine 5 7) hen3 rfl rfl
  have hn3 : min (((ensureStep (ensureStep (initSys orgEmpty 2) 3000) 10000).fetches.getD 1
      ⟨0, 0⟩).hi - ((ensureStep (ensureStep (initSys orgEmpty 2) 3000) 10000).fetches.getD 1
      ⟨0, 0⟩).lo).toNat (respFine 5 7).length = 1 := by
    rw [hget2]; rfl
  refine ⟨hab2, ?_, ?_⟩
  · show (deliverStep false (ensureStep (ensureStep (initSys orgEmpty 2) 3000) 10000)
      1 200 (respFine 5 7)).vc.dataRead 8000 = (some 5, some 7)
    rw [e3]
    unfold VC.dataRead
    dsimp only
    rw [hoff2, hn3, hspp2, if_pos (by decide : (0 : Int) ≤ 8000 - 8000)]
    show (installPairs (ensureStep (ensureStep (initSys orgEmpty 2) 3000) 10000).vc.data
      (libResample (respFine 5 7) 2) 1).getD 0 (none, none) = (some 5, some 7)
    rw [installPairs_getD_lt _ _ 1 0 (by decide) (by rw [hlen2]; decide)]
    rw [(respFine_resampled 5 7).2.1, (respFine_resampled 5 7).2.2]
  · show (deliverStep false (deliverStep false (ensureStep (ensureStep (initSys orgEmpty 2)
      3000) 10000) 1 200 (respFine 5 7)) 0 200 (respFine 9 9)).vc.dataRead 8000 =
      (some 9, some 9)
    have hflen3 : (deliverStep false (ensureStep (ensureStep (initSys orgEmpty 2) 3000)
        10000) 1 200 (respFine 5 7)).fetches.length = 2 := by
      rw [e3]; exact hflen2
    have hdel3 : (deliverStep false (ensureStep (ensureStep (initSys orgEmpty 2) 3000)
        10000) 1 200 (respFine 5 7)).delivered = [1] := by
      rw [e3]
      show 1 :: (ensureStep (ensureStep (initSys orgEmpty 2) 3000) 10000).delivered = [1]
      rw [hdel2]
    have hget3 : (deliverStep false (ensureStep (ensureStep (initSys orgEmpty 2) 3000)
        10000) 1 200 (respFine 5 7)).fetches.getD 0 ⟨0, 0⟩ = ⟨1000, 5000⟩ := by
      rw [e3, e2, e1]; rfl
    have hspp3 : (deliverStep false (ensureStep (ensureStep (initSys orgEmpty 2) 3000)
        10000) 1 200 (respFine 5 7)).vc.spp = 2 := by
      rw [e3]; exact hspp2
    have hoff3 : (deliverStep false (ensureStep (ensureStep (initSys orgEmpty 2) 3000)
        10000) 1 200 (respFine 5 7)).vc.dataOffset = 8000 := by
      rw [e3]; exact hoff2
    have hdlen3 : (deliverStep false (ensureStep (ensureStep (initSys orgEmpty 2) 3000)
        10000) 1 200 (respFine 5 7)).vc.data.length = windowSpan := by
      rw [e3]
      show (installPairs (ensureStep (ensureStep (initSys orgEmpty 2) 3000)
        10000).vc.data _ _).length = windowSpan
      rw [installPairs_length]
      exact hlen2
    have hen4 : 0 < (deliverStep false (ensureStep (ensureStep (initSys orgEmpty 2) 3000)
        10000) 1 200 (respFine 5 7)).fetches.length ∧
        0 ∉ (deliverStep false (ensureStep (ensureStep (initSys orgEmpty 2) 3000) 10000)
          1 200 (respFine 5 7)).delivered ∧
        ((false = true) → 0 ∉ (deliverStep false (ensureStep (ensureStep
          (initSys orgEmpty 2) 3000) 10000) 1 200 (respFine 5 7)).abortedIds) := by
      refine ⟨by rw [hflen3]; decide, by rw [hdel3]; decide,
        fun h => absurd h (by decide)⟩
    have hn4 : min (((deliverStep false (ensureStep (ensureStep (initSys orgEmpty 2) 3000)
        10000) 1 200 (respFine 5 7)).fetches.getD 0 ⟨0, 0⟩).hi -
        ((deliverStep false (ensureStep (ensureStep (initSys orgEmpty 2) 3000) 10000)
        1 200 (respFine 5 7)).fetches.getD 0 ⟨0, 0⟩).lo).toNat (respFine 9 9).length = 1 := by
      rw [hget3]; rfl
    have e4 := deliverStep_ok false (deliverStep false (ensureStep (ensureStep
      (initSys orgEmpty 2) 3000) 10000) 1 200 (respFine 5 7)) 0 200 (respFine 9 9)
      hen4 rfl rfl
    rw [e4]
    unfold VC.dataRead
    dsimp only
    rw [hoff3, hn4, hspp3, if_pos (by decide : (0 : Int) ≤ 8000 - 8000)]
    show (installPairs (deliverStep false (ensureStep (ensureStep (initSys orgEmpty 2)
      3000) 10000) 1 200 (respFine 5 7)).vc.data
      (libResample (respFine 9 9) 2) 1).getD 0 (none, none) = (some 9, some 9)
    rw [installPairs_getD_lt _ _ 1 0 (by decide) (by rw [hdlen3]; decide)]
    rw [(respFine_resampled 9 9).2.1, (respFine_resampled 9 9).2.2]

/-- Claim C2, counterexample: the claim states that the samples per pixel of
the returned VirtualWaveform is at least the backing scale.  In the very
scenario of the claim (base length 1000, scale 512, resample of width 5000)
the derived samples per pixel is 512 * 1000 / 5000 = 102.4, which is not at
least 512: the virtual facade lowers samples per pixel (raises resolution),
it never raises it. -/
theorem claim2_counterexample :
    resultSpp (dynResample base1000 ⟨none, 5000⟩) = some (512 / 5) ∧
    ¬((512 : Rat) ≤ 512 / 5) := by
  constructor
  · unfold dynResample targetLength
    dsimp only
    rw [if_pos (by norm_num [base1000])]
    unfold mkDynamicLoadWaveForm
    rw [if_neg (by decide)]
    show resultSpp (Except.ok (ResampleResult.virtualWf ⟨base1000, 5000,
      base1000.scale * (base1000.length : Rat) / 5000⟩)) = some (512 / 5)
    unfold resultSpp
    norm_num [base1000]
  · norm_num

/-- Claim C2, amended: for every resample(args, callback) call on a mono
based DynamicResampleWaveform (with positive backing scale, and a scale
argument that is not the falsy 0): the target length is
duration * sample_rate / args.scale when args.scale is given, else
args.width; the result is a VirtualWaveform exactly when the target length
exceeds the base length, with length equal to the target and samples per
pixel backingScale * backingLength / targetLength, which is strictly BELOW
the backing scale; otherwise a locally downsampled waveform is returned
synchronously. -/
theorem claim2_amended (w : WfData) (args : ResampleArgs)
    (hch : w.channels = 1) (hsc : 0 < w.scale) (hs0 : args.scale ≠ some 0) :
    ((∀ sc : Rat, args.scale = some sc →
        targetLength w args = w.duration * w.sample_rate / sc) ∧
      (args.scale = none → targetLength w args = args.width)) ∧
    ((w.length : Rat) < targetLength w args →
      dynResample w args = Except.ok (ResampleResult.virtualWf
        ⟨w, targetLength w args,
          w.scale * (w.length : Rat) / targetLength w args⟩) ∧
      w.scale * (w.length : Rat) / targetLength w args < w.scale) ∧
    (¬((w.length : Rat) < targetLength w args) →
      dynResample w args = Except.ok (ResampleResult.downsampled
        (libResample w (localScale w args)))) := by
  refine ⟨⟨?_, ?_⟩, ?_, ?_⟩
  · intro sc hsome
    unfold targetLength
    rw [hsome]
    dsimp only
    rw [if_neg (fun h0 => hs0 (by rw [hsome, h0]))]
  · intro hnone
    unfold targetLength
    rw [hnone]
  · intro hlt
    constructor
    · unfold dynResample
      dsimp only
      rw [if_pos hlt]
      unfold mkDynamicLoadWaveForm
      rw [if_neg (fun h => h hch)]
      rfl
    · have hT : (0 : Rat) < targetLength w args :=
        lt_of_le_of_lt (Nat.cast_nonneg w.length) hlt
      rw [div_lt_iff₀ hT]
      exact mul_lt_mul_of_pos_left hlt hsc
  · intro hge
    unfold dynResample
    dsimp only
    rw [if_neg hge]

/-- Claim C2, witness: the scenario of the claim: base length 1000, scale
512, sample rate 48000, resample of width 5000 yields the virtual waveform
of length 5000 with samples per pixel 512 * 1000 / 5000 = 102.4 < 512. -/
theorem claim2_witness :
    targetLength base1000 ⟨none, 5000⟩ = 5000 ∧
    dynResample base1000 ⟨none, 5000⟩ = Except.ok (ResampleResult.virtualWf
      ⟨base1000, targetLength base1000 ⟨none, 5000⟩,
        base1000.scale * (base1000.length : Rat) / targetLength base1000 ⟨none, 5000⟩⟩) ∧
    base1000.scale * (base1000.length : Rat) / targetLength base1000 ⟨none, 5000⟩ <
      base1000.scale := by
  have hcl := claim2_amended base1000 ⟨none, 5000⟩ rfl (by norm_num [base1000])
    (fun h => Option.noConfusion h)
  have htl : targetLength base1000 ⟨none, 5000⟩ = 5000 := hcl.1.2 rfl
  have hlt : (base1000.length : Rat) < targetLength base1000 ⟨none, 5000⟩ := by
    rw [htl]
    norm_num [base1000]
  exact ⟨htl, (hcl.2.1 hlt).1, (hcl.2.1 hlt).2⟩

/-- Claim C10, counterexample: the claim states that every read of the
resampled channel in the copy loop stays within the resampled bounds for
every response.  A 4000 point response at scale 1 resampled to scale 2 has
only 2000 points, while the loop copies min(windowSpan, 4000) = 4000 pairs,
so the read at dataIdx = 2000 is out of the resampled channel bounds and
yields undefined. -/
theorem claim10_counterexample :
    min windowSpan resp4000.length = 4000 ∧
    (libResample resp4000 2).length = 2000 ∧
    ¬(min windowSpan resp4000.length ≤ (libResample resp4000 2).length) ∧
    (libResample resp4000 2).readMin 2000 = none ∧
    (libResample resp4000 2).readMax 2000 = none := by
  have hL : (libResample resp4000 2).length = 2000 := by
    show (⌈((4000 : Nat) : Rat) * 1 / 2⌉).toNat = 2000
    have h1 : (((4000 : Nat) : Rat) * 1 / 2 : Rat) = ((2000 : Int) : Rat) := by norm_num
    rw [h1, Int.ceil_intCast]
    rfl
  refine ⟨by decide, hL, ?_, ?_, ?_⟩
  · rw [hL]; decide
  · unfold Resampled.readMin
    rw [if_neg (by rw [hL]; decide)]
  · unfold Resampled.readMax
    rw [if_neg (by rw [hL]; decide)]

/-- Claim C10, amended: in the successful refresh handler, the number of
pairs copied into the window is min(windowSpan, L) where L is the length of
the decoded response at its original scale (the fetch span is always
windowSpan pixels in every reachable state); slots at and beyond that count
are untouched.  Each copied slot receives the read of the resampled channel
at its index; such a read is within the resampled bounds only when the index
is below the resampled length, and every read at or past the resampled
length yields the undefined pair, which the loop then stores. -/
theorem claim10_amended (rel : Bool) (org : WfData) (spp : Rat) (evs : List Ev)
    (id st : Nat) (resp : WfData)
    (hid : id < (run rel (initSys org spp) evs).fetches.length)
    (hdel : id ∉ (run rel (initSys org spp) evs).delivered)
    (habort : (rel = true) → id ∉ (run rel (initSys org spp) evs).abortedIds)
    (hst : st = 200) (hch : resp.channels = 1) :
    min ((((run rel (initSys org spp) evs).fetches.getD id ⟨0, 0⟩).hi -
        ((run rel (initSys org spp) evs).fetches.getD id ⟨0, 0⟩).lo).toNat) resp.length =
      min windowSpan resp.length ∧
    (∀ k : Nat, k < min windowSpan resp.length →
      k < (run rel (initSys org spp) evs).vc.data.length →
      (deliverStep rel (run rel (initSys org spp) evs) id st resp).vc.data.getD k
          (none, none) =
        ((libResample resp (run rel (initSys org spp) evs).vc.spp).readMin k,
         (libResample resp (run rel (initSys org spp) evs).vc.spp).readMax k)) ∧
    (∀ k : Nat, min windowSpan resp.length ≤ k →
      (deliverStep rel (run rel (initSys org spp) evs) id st resp).vc.data.getD k
          (none, none) = (run rel (initSys org spp) evs).vc.data.getD k (none, none)) ∧
    (∀ k : Nat, (libResample resp (run rel (initSys org spp) evs).vc.spp).length ≤ k →
      ((libResample resp (run rel (initSys org spp) evs).vc.spp).readMin k,
       (libResample resp (run rel (initSys org spp) evs).vc.spp).readMax k) =
        (none, none)) := by
  have hspan : spanInv (run rel (initSys org spp) evs) :=
    spanInv_run rel (initSys org spp) evs (spanInv_init org spp)
  have hmem : (run rel (initSys org spp) evs).fetches.getD id ⟨0, 0⟩ ∈
      (run rel (initSys org spp) evs).fetches := by
    rw [List.getD_eq_getElem?_getD, List.getElem?_eq_getElem hid]
    exact List.getElem_mem hid
  have hsp := hspan _ hmem
  have hn : min ((((run rel (initSys org spp) evs).fetches.getD id ⟨0, 0⟩).hi -
      ((run rel (initSys org spp) evs).fetches.getD id ⟨0, 0⟩).lo).toNat) resp.length =
      min windowSpan resp.length := by
    rw [hsp]
    rfl
  have heq := deliverStep_ok rel (run rel (initSys org spp) evs) id st resp
    ⟨hid, hdel, habort⟩ hst hch
  refine ⟨hn, ?_, ?_, ?_⟩
  · intro k hk1 hk2
    rw [heq]
    dsimp only
    rw [hn]
    exact installPairs_getD_lt _ _ _ k hk1 hk2
  · intro k hk
    rw [heq]
    dsimp only
    rw [hn]
    exact installPairs_getD_ge _ _ _ k hk _
  · intro k hk
    unfold Resampled.readMin Resampled.readMax
    rw [if_neg (by omega), if_neg (by omega)]

/-- Claim C10, witness: on the reachable state after one access, delivering
a one point 200 response copies min(windowSpan, 1) = 1 pair, and slot 0
receives the resampled channel reads. -/
theorem claim10_witness :
    min ((((run false (initSys orgEmpty 2) [Ev.access 3000]).fetches.getD 0 ⟨0, 0⟩).hi -
        ((run false (initSys orgEmpty 2) [Ev.access 3000]).fetches.getD 0 ⟨0, 0⟩).lo).toNat)
      (respFine 5 7).length = min windowSpan (respFine 5 7).length ∧
    (deliverStep false (run false (initSys orgEmpty 2) [Ev.access 3000]) 0 200
      (respFine 5 7)).vc.data.getD 0 (none, none) =
      ((libResample (respFine 5 7) (run false (initSys orgEmpty 2)
        [Ev.access 3000]).vc.spp).readMin 0,
       (libResample (respFine 5 7) (run false (initSys orgEmpty 2)
        [Ev.access 3000]).vc.spp).readMax 0) := by
  have hflen : (run false (initSys orgEmpty 2) [Ev.access 3000]).fetches.length = 1 := by
    show (ensureStep (initSys orgEmpty 2) 3000).fetches.length = 1
    rw [ensureStep_eq_refresh _ _ (by decide)]
    rfl
  have hdel : (run false (initSys orgEmpty 2) [Ev.access 3000]).delivered = [] := by
    show (ensureStep (initSys orgEmpty 2) 3000).delivered = []
    rw [ensureStep_eq_refresh _ _ (by decide)]
    rfl
  have hdlen : (run false (initSys orgEmpty 2) [Ev.access 3000]).vc.data.length =
      windowSpan := by
    show (ensureStep (initSys orgEmpty 2) 3000).vc.data.length = windowSpan
    rw [ensureStep_eq_refresh _ _ (by decide)]
    exact length_newWindow _ _
  have hcl := claim10_amended false orgEmpty 2 [Ev.access 3000] 0 200 (respFine 5 7)
    (by rw [hflen]; decide) (by rw [hdel]; exact List.not_mem_nil 0)
    (fun h => absurd h (by decide)) rfl rfl
  exact ⟨hcl.1, hcl.2.1 0 (by decide) (by rw [hdlen]; decide)⟩

theorem remoteFetchRun_cases (u : Bool) (env : BrowserEnv) :
    ((remoteFetchRun u env).calls.length = 1 ∧ (remoteFetchRun u env).threw = false) ∨
    (u = true ∧ ∃ x : Unit, env.remoteXhr = XhrOutcome.load 200 (Except.error x) ∧
      remoteFetchRun u env = ⟨[], true, false⟩) := by
  unfold remoteFetchRun
  cases u with
  | false => left; exact ⟨rfl, rfl⟩
  | true =>
    rw [if_neg (by simp)]
    cases hx : env.remoteXhr with
    | transportFail => left; exact ⟨rfl, rfl⟩
    | load status parsed =>
      dsimp only
      by_cases hst : status ≠ 200
      · rw [if_pos hst]; left; exact ⟨rfl, rfl⟩
      · rw [if_neg hst]
        have hst200 : status = 200 := by omega
        cases parsed with
        | error x =>
          right
          exact ⟨rfl, x, by rw [hst200], rfl⟩
        | ok w =>
          dsimp only
          by_cases hch : w.channels ≠ 1 ∧ w.channels ≠ 2
          · rw [if_pos hch]; left; exact ⟨rfl, rfl⟩
          · rw [if_neg hch]; left; exact ⟨rfl, rfl⟩

theorem localRun_once (v : WfLocalVal) (env : BrowserEnv) :
    (localRun v env).calls.length = 1 ∧ (localRun v env).threw = false := by
  unfold localRun
  cases v with
  | other => exact ⟨rfl, rfl⟩
  | obj jsonOk bufOk =>
    dsimp only
    by_cases hb : jsonOk = false ∧ bufOk = false
    · rw [if_pos hb]; exact ⟨rfl, rfl⟩
    · rw [if_neg hb]
      cases env.localParse with
      | error x => exact ⟨rfl, rfl⟩
      | ok w =>
        dsimp only
        by_cases hch : w.channels ≠ 1 ∧ w.channels ≠ 2
        · rw [if_pos hch]; exact ⟨rfl, rfl⟩
        · rw [if_neg hch]; exact ⟨rfl, rfl⟩

theorem requestAudioRun_cases (url : String) (env : BrowserEnv) :
    ((requestAudioRun url env).calls.length = 1 ∧ (requestAudioRun url env).threw = false) ∨
    (url = "" ∧ requestAudioRun url env = ⟨[], false, false⟩) := by
  unfold requestAudioRun
  by_cases hu : url = ""
  · right; exact ⟨hu, by rw [if_pos hu]⟩
  · rw [if_neg hu]
    cases env.audioXhr with
    | transportFail => left; exact ⟨rfl, rfl⟩
    | load status parsed =>
      dsimp only
      by_cases hst : status ≠ 200
      · rw [if_pos hst]; left; exact ⟨rfl, rfl⟩
      · rw [if_neg hst]; left; exact ⟨rfl, rfl⟩

theorem initRun_split (o : InitOptions) (env : BrowserEnv) :
    ((initRun o env).calls.length = 1 ∧ (initRun o env).threw = false ∧
      (initRun o env).pending = false) ∨
    (initRun o env).pending = true ∨
    (invalidSrcPath o env = true ∧ initRun o env = ⟨[], false, false⟩) ∨
    (remoteParseThrow o env = true ∧ initRun o env = ⟨[], true, false⟩) := by
  by_cases hc : conflictErr o = true
  · left
    unfold initRun
    rw [if_pos hc]
    exact ⟨rfl, rfl, rfl⟩
  · have hcf : conflictErr o = false := by revert hc; cases conflictErr o <;> simp
    unfold initRun
    rw [if_neg hc]
    cases hdu : o.dataUri with
    | some duo =>
      dsimp only
      have hremote : ∀ u : Bool,
          ((remoteFetchRun u env).calls.length = 1 ∧ (remoteFetchRun u env).threw = false ∧
            (remoteFetchRun u env).pending = false) ∨
          (u = true ∧ ∃ x : Unit, env.remoteXhr = XhrOutcome.load 200 (Except.error x) ∧
            remoteFetchRun u env = ⟨[], true, false⟩) := by
        intro u
        rcases remoteFetchRun_cases u env with ⟨ha, hb⟩ | hbad
        · left
          refine ⟨ha, hb, ?_⟩
          unfold remoteFetchRun
          cases u with
          | false => rfl
          | true =>
            rw [if_neg (by simp)]
            cases env.remoteXhr with
            | transportFail => rfl
            | load status parsed =>
              dsimp only
              by_cases hst : status ≠ 200
              · rw [if_pos hst]
              · rw [if_neg hst]
                cases parsed with
                | error x => rfl
                | ok w =>
                  dsimp only
                  by_cases hch : w.channels ≠ 1 ∧ w.channels ≠ 2
                  · rw [if_pos hch]
                  · rw [if_neg hch]
        · right; exact hbad
      cases duo with
      | other =>
        left
        exact ⟨rfl, rfl, rfl⟩
      | obj ab js =>
        rcases hremote (resolveUrl env.hasArrayBuffer env.hasJSON ab js) with h | ⟨hu, x, hx, heq⟩
        · left; exact h
        · right; right; right
          refine ⟨?_, heq⟩
          unfold remoteParseThrow
          rw [hdu, hx]
          simp [hcf, hu]
      | strUri defAB =>
        rcases hremote (resolveUrl env.hasArrayBuffer env.hasJSON defAB (!defAB)) with
          h | ⟨hu, x, hx, heq⟩
        · left; exact h
        · right; right; right
          refine ⟨?_, heq⟩
          unfold remoteParseThrow
          rw [hdu, hx]
          simp [hcf, hu]
    | none =>
      cases hwd : o.waveformData with
      | some v =>
        dsimp only
        left
        refine ⟨(localRun_once v env).1, (localRun_once v env).2, ?_⟩
        unfold localRun
        cases v with
        | other => rfl
        | obj jsonOk bufOk =>
          dsimp only
          by_cases hb : jsonOk = false ∧ bufOk = false
          · rw [if_pos hb]
          · rw [if_neg hb]
            cases env.localParse with
            | error x => rfl
            | ok w =>
              dsimp only
              by_cases hch : w.channels ≠ 1 ∧ w.channels ≠ 2
              · rw [if_pos hch]
              · rw [if_neg hch]
      | none =>
        cases hwa : (if o.audioContext then some false else o.webAudio) with
        | none =>
          left
          exact ⟨rfl, rfl, rfl⟩
        | some hb =>
          dsimp only
          unfold webAudioRun
          cases hb with
          | true =>
            rw [if_pos rfl]
            left
            exact ⟨rfl, rfl, rfl⟩
          | false =>
            rw [if_neg (by simp)]
            by_cases hctx : env.ctxValid = false
            · rw [if_pos hctx]
              left
              exact ⟨rfl, rfl, rfl⟩
            · rw [if_neg hctx]
              have hctxT : env.ctxValid = true := by
                revert hctx; cases env.ctxValid <;> simp
              by_cases hsrc : env.currentSrc ≠ ""
              · rw [if_pos hsrc]
                rcases requestAudioRun_cases env.currentSrc env with ⟨h1, h2⟩ | ⟨hemp, _⟩
                · left
                  refine ⟨h1, h2, ?_⟩
                  unfold requestAudioRun
                  rw [if_neg hsrc]
                  cases env.audioXhr with
                  | transportFail => rfl
                  | load status parsed =>
                    dsimp only
                    by_cases hst : status ≠ 200
                    · rw [if_pos hst]
                    · rw [if_neg hst]
                · exact absurd hemp hsrc
              · rw [if_neg hsrc]
                have hsrcE : env.currentSrc = "" := not_not.mp hsrc
                by_cases hcp : env.canplayFires = true
                · rw [if_pos hcp]
                  rcases requestAudioRun_cases env.canplaySrc env with ⟨h1, h2⟩ | ⟨hemp, heq⟩
                  · left
                    refine ⟨h1, h2, ?_⟩
                    unfold requestAudioRun
                    by_cases hu2 : env.canplaySrc = ""
                    · exfalso
                      rcases requestAudioRun_cases env.canplaySrc env with ⟨hl1, _⟩ | ⟨_, heq2⟩
                      · rw [show requestAudioRun env.canplaySrc env = ⟨[], false, false⟩
                          from by unfold requestAudioRun; rw [if_pos hu2]] at hl1
                        exact absurd hl1 (by decide)
                      · rw [heq2] at h1
                        exact absurd h1 (by decide)
                    · rw [if_neg hu2]
                      cases env.audioXhr with
                      | transportFail => rfl
                      | load status parsed =>
                        dsimp only
                        by_cases hst : status ≠ 200
                        · rw [if_pos hst]
                        · rw [if_neg hst]
                  · right; right; left
                    refine ⟨?_, heq⟩
                    have hwaEq : (o.audioContext || o.webAudio.isSome) = true ∧
                        ((if o.audioContext then some false else o.webAudio).getD false) =
                          false := by
                      by_cases hac : o.audioContext = true
                      · rw [hac]
                        simp
                      · have hacF : o.audioContext = false := by
                          revert hac; cases o.audioContext <;> simp
                        rw [hacF] at hwa ⊢
                        simp at hwa
                        simp [hwa]
                    unfold invalidSrcPath
                    rw [hdu, hwd, hwa, hcf, hsrcE, hcp, hemp]
                    simp only [Option.isNone_none, Bool.not_false, Bool.true_and,
                      Option.getD_some, decide_True]
                    rw [hwaEq.1, hctxT]
                    have : ((if o.audioContext then some false else o.webAudio).getD false) =
                        false := hwaEq.2
                    rw [hwa] at this
                    simp at this
                    simp [this]
                · rw [if_neg hcp]
                  right; left
                  rfl

/-- Claim C9, counterexample: the claim states the completion callback is
invoked exactly once in every path.  On the web audio path with a valid
context, an empty media source at init time, and a canplay event that fires
while the source is still empty, the source logs the invalid media url and
returns: the callback is invoked zero times and nothing is pending. -/
theorem claim9_counterexample :
    initRun ⟨none, none, some false, false⟩
      ⟨true, true, true, "", true, "", XhrOutcome.transportFail, XhrOutcome.transportFail,
        Except.error (), CbEvent.err⟩ = ⟨[], false, false⟩ ∧
    ((initRun ⟨none, none, some false, false⟩
      ⟨true, true, true, "", true, "", XhrOutcome.transportFail, XhrOutcome.transportFail,
        Except.error (), CbEvent.err⟩).calls.length = 1 → False) := by
  constructor
  · rfl
  · intro h
    rw [show initRun ⟨none, none, some false, false⟩
      ⟨true, true, true, "", true, "", XhrOutcome.transportFail, XhrOutcome.transportFail,
        Except.error (), CbEvent.err⟩ = ⟨[], false, false⟩ from rfl] at h
    exact absurd h (by decide)

/-- Claim C9, amended: for every invocation of the acquisition entry point,
in every terminated path the completion callback is invoked exactly once
(with an error or a waveform, never both), EXCEPT two paths: the web audio
path that reaches the audio request with an empty media url logs and invokes
the callback zero times, and a remote dataUri path whose 200 payload fails
to parse throws from the load handler without invoking the callback (a path
deferred to a canplay event that never fires is pending, not terminated).
In particular, passing both dataUri and waveformData yields exactly one
configuration error callback and no waveform. -/
theorem claim9_amended (o : InitOptions) (env : BrowserEnv)
    (hp : (initRun o env).pending = false)
    (h1 : invalidSrcPath o env = false)
    (h2 : remoteParseThrow o env = false) :
    (initRun o env).calls.length = 1 ∧ (initRun o env).threw = false ∧
    (o.dataUri.isSome = true → o.waveformData.isSome = true →
      initRun o env = ⟨[CbEvent.err], false, false⟩) := by
  have hthird : o.dataUri.isSome = true → o.waveformData.isSome = true →
      initRun o env = ⟨[CbEvent.err], false, false⟩ := by
    intro hdu hwd
    unfold initRun
    rw [if_pos (by simp [conflictErr, hdu, hwd])]
  rcases initRun_split o env with ⟨ha, hb, _⟩ | hpend | ⟨hbad, _⟩ | ⟨hbad, _⟩
  · exact ⟨ha, hb, hthird⟩
  · rw [hpend] at hp
    exact absurd hp (by decide)
  · rw [hbad] at h1
    exact absurd h1 (by decide)
  · rw [hbad] at h2
    exact absurd h2 (by decide)

/-- Claim C9, witness: passing both dataUri and waveformData yields exactly
one error callback and no waveform. -/
theorem claim9_witness :
    (initRun ⟨some (DataUriVal.obj true true), some (WfLocalVal.obj true true), none, false⟩
      ⟨true, true, true, "s", true, "s", XhrOutcome.transportFail, XhrOutcome.transportFail,
        Except.ok ⟨1⟩, CbEvent.okWf⟩).calls.length = 1 ∧
    initRun ⟨some (DataUriVal.obj true true), some (WfLocalVal.obj true true), none, false⟩
      ⟨true, true, true, "s", true, "s", XhrOutcome.transportFail, XhrOutcome.transportFail,
        Except.ok ⟨1⟩, CbEvent.okWf⟩ = ⟨[CbEvent.err], false, false⟩ := by
  have hcl := claim9_amended
    ⟨some (DataUriVal.obj true true), some (WfLocalVal.obj true true), none, false⟩
    ⟨true, true, true, "s", true, "s", XhrOutcome.transportFail, XhrOutcome.transportFail,
      Except.ok ⟨1⟩, CbEvent.okWf⟩ rfl rfl rfl
  exact ⟨hcl.1, hcl.2.2 rfl rfl⟩

end Peaks
